import Mathlib

/-!
Shallow embedding of the request-tracing and call-logging pipeline of the
`solmailzero` repository (apps/server/src/lib/{trace-context,logging-service,
datadog-service}.ts and apps/server/src/types/logging.ts), together with
theorems checking the natural-language specification against it.

JavaScript `Map`s are modelled as insertion-ordered association lists with
unique keys (a real `Map` can never hold a duplicate key; theorems that rely
on this carry an explicit `Nodup` hypothesis on the key list).  Timestamps
and durations (`Date.now()` values) are modelled as `Int`; fallible code is
modelled with `Except`; external effects (the Datadog sink, `crypto.randomUUID`)
are passed in as parameters.
-/

/-- JavaScript truthiness of a `string | undefined` value: `undefined` and the
empty string are falsy, every other string is truthy. -/
def jsTruthy : Option String → Bool
  | none => false
  | some s => !(s == "")

/-- JavaScript `a || b` on `string | undefined` operands: returns `a` when `a`
is truthy, otherwise `b`. -/
def jsOrStr (a b : Option String) : Option String :=
  if jsTruthy a then a else b

/-- JavaScript `a || b` where `a` is a `number | undefined` and `b` a number:
`undefined` and `0` are falsy. -/
def jsOrInt (a : Option Int) (b : Int) : Int :=
  match a with
  | none => b
  | some v => if v == 0 then b else v

/-- Status of a trace span (trace-context.ts, `TraceSpan.status`). -/
inductive SpanStatus where
  | started
  | completed
  | error
deriving DecidableEq, Repr

/-- Free-form `Record<string, any>` values (span metadata, tags).  Only the
keys and string renderings of the values matter to this development. -/
abbrev JsRecord := List (String × String)

/-- JavaScript object spread `{ ...a, ...b }`: keys of `a` first (values
overridden by `b` where both have the key), then keys of `b` not in `a`. -/
def mergeRecord (a b : JsRecord) : JsRecord :=
  (a.map fun e => if b.any (fun e2 => e2.1 == e.1) then
      (e.1, ((b.find? (fun e2 => e2.1 == e.1)).map Prod.snd).getD e.2)
    else e)
  ++ b.filter (fun e2 => !(a.any (fun e => e.1 == e2.1)))

/-- trace-context.ts `TraceSpan`. -/
structure TraceSpan where
  id : String
  name : String
  startTime : Int
  endTime : Option Int := none
  duration : Option Int := none
  status : SpanStatus
  metadata : Option JsRecord := none
  error : Option String := none
  tags : Option JsRecord := none
deriving DecidableEq, Repr

/-- trace-context.ts `RequestTrace.metadata`. -/
structure TraceMetadata where
  procedure : Option String := none
  userId : Option String := none
  sessionId : Option String := none
  ip : Option String := none
  userAgent : Option String := none
  requestId : Option String := none
deriving DecidableEq, Repr

/-- trace-context.ts `RequestTrace`. -/
structure RequestTrace where
  traceId : String
  startTime : Int
  endTime : Option Int := none
  duration : Option Int := none
  spans : List TraceSpan
  metadata : TraceMetadata
deriving DecidableEq, Repr

/-- The private `traces` map of `TraceContextClass`: an insertion-ordered
association list from trace id to trace. -/
structure TraceContextState where
  traces : List (String × RequestTrace)
deriving DecidableEq, Repr

/-- `this.MAX_TRACES` (trace-context.ts): maximum number of traces kept. -/
def MAX_TRACES : Nat := 10000

/-- `this.TRACE_TTL_MS` (trace-context.ts): 5-minute TTL in milliseconds. -/
def TRACE_TTL_MS : Int := 5 * 60 * 1000

/-- `Map.get(k)` on an insertion-ordered association list. -/
def assocLookup {α : Type} (k : String) (m : List (String × α)) : Option α :=
  (m.find? (fun e => e.1 == k)).map Prod.snd

/-- `Map.set(k, v)`: overwrite in place if the key is present, else append. -/
def assocSet {α : Type} (k : String) (v : α) (m : List (String × α)) :
    List (String × α) :=
  if m.any (fun e => e.1 == k) then
    m.map (fun e => if e.1 == k then (k, v) else e)
  else m ++ [(k, v)]

/-- `Map.delete(k)`: remove the entry with the key (at most one in a `Map`). -/
def assocDelete {α : Type} (k : String) (m : List (String × α)) :
    List (String × α) :=
  m.eraseP (fun e => e.1 == k)

/-- In-place mutation of the value object obtained from `Map.get(k)`:
rewrite the value stored under the key. -/
def assocUpdate {α : Type} (k : String) (f : α → α) (m : List (String × α)) :
    List (String × α) :=
  m.map (fun e => if e.1 == k then (e.1, f e.2) else e)

/-- `this.traces.get(traceId)` of `TraceContextClass`. -/
def lookupTrace (traceId : String) (s : TraceContextState) : Option RequestTrace :=
  assocLookup traceId s.traces

/-- `Map.set` on the trace map. -/
def mapSet (k : String) (v : RequestTrace) (m : List (String × RequestTrace)) :
    List (String × RequestTrace) :=
  assocSet k v m

/-- `Map.delete` on the trace map. -/
def mapDelete (k : String) (m : List (String × RequestTrace)) :
    List (String × RequestTrace) :=
  assocDelete k m

/-- In-place mutation of one trace of the trace map. -/
def mapUpdate (k : String) (f : RequestTrace → RequestTrace)
    (m : List (String × RequestTrace)) : List (String × RequestTrace) :=
  assocUpdate k f m

/-- The keys scheduled for deletion by the TTL pass of `performCleanup`:
every trace whose age strictly exceeds the TTL. -/
def ttlDoomed (now : Int) (s : TraceContextState) : List String :=
  (s.traces.filter (fun e => now - e.2.startTime > TRACE_TTL_MS)).map Prod.fst

/-- The trace map after the TTL pass of `performCleanup` (stale keys deleted). -/
def afterTTLPass (now : Int) (s : TraceContextState) : List (String × RequestTrace) :=
  (ttlDoomed now s).foldl (fun m k => mapDelete k m) s.traces

/-- Comparator used by the capacity pass: `a.startTime - b.startTime` sorts
ascending by start timestamp. -/
def byStart (a b : String × RequestTrace) : Prop :=
  a.2.startTime ≤ b.2.startTime

instance : DecidableRel byStart := fun a b => Int.decLe a.2.startTime b.2.startTime

instance : IsTotal (String × RequestTrace) byStart :=
  ⟨fun a b => Int.le_total a.2.startTime b.2.startTime⟩

instance : IsTrans (String × RequestTrace) byStart :=
  ⟨fun _ _ _ => Int.le_trans⟩

/-- `TraceContextClass.performCleanup`: a TTL pass deleting every trace older
than `TRACE_TTL_MS`, then, if still over `MAX_TRACES`, deletion of the
oldest-by-startTime excess entries. -/
def performCleanup (now : Int) (s : TraceContextState) : TraceContextState :=
  let afterTTL := afterTTLPass now s
  if afterTTL.length > MAX_TRACES then
    let sorted := afterTTL.insertionSort byStart
    let excessCount := afterTTL.length - MAX_TRACES
    ⟨((sorted.take excessCount).map Prod.fst).foldl (fun m k => mapDelete k m) afterTTL⟩
  else ⟨afterTTL⟩

/-- `TraceContextClass.createTrace`: idempotent on an existing id; otherwise
runs cleanup when at ≥ 90% of capacity, then inserts a fresh trace. -/
def createTrace (now : Int) (traceId : String) (md : TraceMetadata)
    (s : TraceContextState) : RequestTrace × TraceContextState :=
  match lookupTrace traceId s with
  | some existing => (existing, s)
  | none =>
    let s1 := if s.traces.length ≥ MAX_TRACES * 9 / 10 then performCleanup now s else s
    let tr : RequestTrace := { traceId := traceId, startTime := now, spans := [], metadata := md }
    (tr, ⟨mapSet traceId tr s1.traces⟩)

/-- Argument of `addSpan`: `Omit<TraceSpan, 'id' | 'startTime' | 'status'>`. -/
structure SpanSpec where
  name : String
  endTime : Option Int := none
  duration : Option Int := none
  metadata : Option JsRecord := none
  error : Option String := none
  tags : Option JsRecord := none
deriving DecidableEq, Repr

/-- `TraceContextClass.addSpan`: throws `Trace not found` when the trace id is
unknown; otherwise appends a fresh span with status `started`. -/
def addSpan (now : Int) (freshId : String) (traceId : String) (spec : SpanSpec)
    (s : TraceContextState) : Except String (TraceSpan × TraceContextState) :=
  match lookupTrace traceId s with
  | none => .error ("Trace not found: " ++ traceId)
  | some _ =>
    let fullSpan : TraceSpan :=
      { id := freshId, startTime := now, status := .started,
        name := spec.name, endTime := spec.endTime, duration := spec.duration,
        metadata := spec.metadata, error := spec.error, tags := spec.tags }
    .ok (fullSpan, ⟨mapUpdate traceId (fun tr => { tr with spans := tr.spans ++ [fullSpan] }) s.traces⟩)

/-- The mutation `completeSpan` performs on the span it finds: set end/duration,
terminal status by error-truthiness, set error if truthy, merge metadata. -/
def finishSpan (now : Int) (md : Option JsRecord) (err : Option String)
    (sp : TraceSpan) : TraceSpan :=
  { sp with
    endTime := some now,
    duration := some (now - sp.startTime),
    status := if jsTruthy err then .error else .completed,
    error := if jsTruthy err then err else sp.error,
    metadata := match md with
      | none => sp.metadata
      | some m => some (match sp.metadata with
          | some old => mergeRecord old m
          | none => m) }

/-- Update the first list element satisfying `p` (the span `find` locates). -/
def updateFirst (p : α → Bool) (f : α → α) : List α → List α
  | [] => []
  | x :: xs => if p x then f x :: xs else x :: updateFirst p f xs

/-- `TraceContextClass.completeSpan`: silent no-op when trace or span is
unknown; otherwise finishes the first span with the given id. -/
def completeSpan (now : Int) (traceId spanId : String) (md : Option JsRecord)
    (err : Option String) (s : TraceContextState) : TraceContextState :=
  match lookupTrace traceId s with
  | none => s
  | some _ =>
    ⟨mapUpdate traceId
      (fun tr => { tr with spans := updateFirst (fun sp => sp.id == spanId) (finishSpan now md err) tr.spans })
      s.traces⟩

/-- `TraceContextClass.completeTrace`: sets end timestamp and duration; the
deferred 10-second deletion is modelled as the separate `Op.timeoutDelete`. -/
def completeTrace (now : Int) (traceId : String) (s : TraceContextState) :
    Option RequestTrace × TraceContextState :=
  match lookupTrace traceId s with
  | none => (none, s)
  | some tr =>
    let tr1 := { tr with endTime := some now, duration := some (now - tr.startTime) }
    (some tr1, ⟨mapUpdate traceId (fun _ => tr1) s.traces⟩)

/-- `TraceContextClass.startSpan`: `addSpan` with only name/metadata/tags set. -/
def startSpan (now : Int) (freshId : String) (traceId : String) (name : String)
    (md : Option JsRecord) (tags : Option JsRecord) (s : TraceContextState) :
    Except String (TraceSpan × TraceContextState) :=
  addSpan now freshId traceId { name := name, metadata := md, tags := tags } s

/-- The request context `c` as consulted by `getTraceId` (trace-context.ts):
context variables and the two header spellings. -/
structure Ctx where
  varTraceId : Option String := none
  getVarTraceId : Option String := none
  headerXTraceID : Option String := none
  headerxtraceid : Option String := none
deriving DecidableEq, Repr

/-- `getTraceId(c)`: context-bound value first, then the `X-Trace-ID` header
spellings, chained with JavaScript `||`. -/
def getTraceId (c : Ctx) : Option String :=
  jsOrStr (jsOrStr (jsOrStr c.varTraceId c.getVarTraceId) c.headerXTraceID) c.headerxtraceid

/-- `addRequestSpan(c, name, metadata?, tags?)`: absent when no trace id
resolves, otherwise delegates to `startSpan` (which can throw). -/
def addRequestSpan (now : Int) (freshId : String) (c : Ctx) (name : String)
    (md : Option JsRecord) (tags : Option JsRecord) (s : TraceContextState) :
    Except String (Option TraceSpan × TraceContextState) :=
  let traceId := getTraceId c
  if !(jsTruthy traceId) then .ok (none, s)
  else
    match startSpan now freshId (traceId.getD "") name md tags s with
    | .ok (sp, s1) => .ok (some sp, s1)
    | .error e => .error e

/-- `completeRequestSpan(c, spanId, metadata?, error?)`: no-op when no trace id
resolves, else `completeSpan` (which never throws). -/
def completeRequestSpan (now : Int) (c : Ctx) (spanId : String)
    (md : Option JsRecord) (err : Option String) (s : TraceContextState) :
    TraceContextState :=
  let traceId := getTraceId c
  if !(jsTruthy traceId) then s
  else completeSpan now (traceId.getD "") spanId md err s

/-- The key list of the trace map has no duplicates (always true of a `Map`). -/
def nodupKeys (s : TraceContextState) : Prop :=
  (s.traces.map Prod.fst).Nodup

instance (s : TraceContextState) : Decidable (nodupKeys s) :=
  inferInstanceAs (Decidable (s.traces.map Prod.fst).Nodup)

/-- types/logging.ts: the trace snapshot embedded in a `TRPCCallLog`. -/
structure TraceSnapshot where
  traceId : String
  requestStartTime : Int
  requestEndTime : Option Int := none
  requestDuration : Option Int := none
  spans : List TraceSpan
  totalSpans : Int
  completedSpans : Int
  errorSpans : Int
deriving DecidableEq, Repr

/-- types/logging.ts: the `method` field of `TRPCCallLog.metadata`. -/
inductive CallMethod where
  | query
  | mutation
  | subscription
deriving DecidableEq, Repr

/-- Rendering of a `CallMethod` as its JavaScript string. -/
def CallMethod.render : CallMethod → String
  | .query => "query"
  | .mutation => "mutation"
  | .subscription => "subscription"

/-- types/logging.ts: `TRPCCallLog.metadata`. -/
structure CallMetadata where
  userAgent : Option String := none
  ip : Option String := none
  method : CallMethod
  referer : Option String := none
  origin : Option String := none
  acceptLanguage : Option String := none
  acceptEncoding : Option String := none
  requestId : Option String := none
  timestamp : Option String := none
  startTime : Option Int := none
  endTime : Option Int := none
  traceId : Option String := none
  requestDuration : Option Int := none
deriving DecidableEq, Repr

/-- types/logging.ts: `TRPCCallLog` (payloads modelled by their rendering). -/
structure TRPCCallLog where
  id : String
  timestamp : Int
  userId : String
  sessionId : String
  procedure : String
  input : Option String
  output : Option String := none
  error : Option String := none
  duration : Int
  metadata : CallMetadata
  trace : Option TraceSnapshot := none
deriving DecidableEq, Repr

/-- `Omit<TRPCCallLog, 'id' | 'timestamp'>`, the argument of `logCall`. -/
structure TRPCCallInput where
  userId : String
  sessionId : String
  procedure : String
  input : Option String
  output : Option String := none
  error : Option String := none
  duration : Int
  metadata : CallMetadata
  trace : Option TraceSnapshot := none
deriving DecidableEq, Repr

/-- The fixed list of self-referential logging procedures
(`DatadogService.isLoggingProcedure`). -/
def loggingProcedures : List String :=
  ["logging.getSessionStats", "logging.clearSession",
   "logging.getSessionState", "logging.exportToDatadog"]

/-- `DatadogService.isLoggingProcedure`. -/
def isLoggingProcedure (procedure : String) : Bool :=
  loggingProcedures.contains procedure

/-- Character class `[0-9.]` of the browser-version regexes. -/
def isVerChar (c : Char) : Bool := c.isDigit || c == '.'

/-- Character class `[0-9_]` of the iOS regex. -/
def isVerCharU (c : Char) : Bool := c.isDigit || c == '_'

/-- Character class `[0-9_.]` of the macOS regex. -/
def isVerCharUD (c : Char) : Bool := c.isDigit || c == '_' || c == '.'

/-- Case-insensitive match of a literal pattern at the head of the input;
returns the remainder on success (the `/i` flag of the regexes). -/
def matchLitCI : List Char → List Char → Option (List Char)
  | [], rest => some rest
  | _ :: _, [] => none
  | p :: ps, c :: cs => if p.toLower == c.toLower then matchLitCI ps cs else none

/-- Leftmost match of the regex `lit([cls]+)` (case-insensitive literal
followed by a non-empty greedy character-class capture): the capture group. -/
def searchCapture (pat : List Char) (cls : Char → Bool) : List Char → Option (List Char)
  | [] => none
  | c :: cs =>
    match matchLitCI pat (c :: cs) with
    | some rest =>
      let cap := rest.takeWhile cls
      if cap.isEmpty then searchCapture pat cls cs else some cap
    | none => searchCapture pat cls cs

/-- Case-insensitive substring test (a capture-free regex literal). -/
def searchLit (pat : List Char) : List Char → Bool
  | [] => List.isEmpty pat
  | c :: cs => (matchLitCI pat (c :: cs)).isSome || searchLit pat cs

/-- One pattern of the `browsers` / `os` tables: a literal with an optional
version-capture class (`none` for the capture-free `linux` pattern). -/
structure UAPattern where
  name : String
  literal : String
  capture : Option (Char → Bool)

/-- Run one user-agent pattern: `none` when the regex does not match,
`some g` when it matches with capture group `g` (empty for capture-free). -/
def runUAPattern (p : UAPattern) (ua : List Char) : Option (List Char) :=
  match p.capture with
  | some cls => searchCapture p.literal.data cls ua
  | none => if searchLit p.literal.data ua then some [] else none

/-- The `browsers` table, in `Object.entries` order. -/
def browserPatterns : List UAPattern :=
  [⟨"chrome", "Chrome/", some isVerChar⟩,
   ⟨"firefox", "Firefox/", some isVerChar⟩,
   ⟨"safari", "Safari/", some isVerChar⟩,
   ⟨"edge", "Edg/", some isVerChar⟩]

/-- The `os` table, in `Object.entries` order. -/
def osPatterns : List UAPattern :=
  [⟨"windows", "Windows NT ", some isVerChar⟩,
   ⟨"macos", "Mac OS X ", some isVerCharUD⟩,
   ⟨"linux", "Linux", none⟩,
   ⟨"android", "Android ", some isVerChar⟩,
   ⟨"ios", "OS ", some isVerCharU⟩]

/-- The `devices` table, in `Object.entries` order: alternations of literals. -/
def devicePatterns : List (String × List String) :=
  [("mobile", ["Mobile", "Android", "iPhone"]),
   ("tablet", ["iPad", "Tablet"]),
   ("desktop", ["Windows", "Mac", "Linux"])]

/-- First matching entry of a pattern table (first match wins per category). -/
def firstUAMatch (pats : List UAPattern) (ua : List Char) : Option (String × List Char) :=
  pats.findSome? (fun p => (runUAPattern p ua).map (fun g => (p.name, g)))

/-- `match[1]?.replace(/_/g, '.') || ''` applied to a capture group. -/
def renderOsVersion (g : List Char) : String :=
  String.mk (g.map (fun c => if c == '_' then '.' else c))

/-- The classification object produced by `parseUserAgent` inside
`logSingleCall`; `none` fields model properties absent from the object. -/
structure UAInfo where
  browser : Option String := none
  browser_version : Option String := none
  operating_system : Option String := none
  os_version : Option String := none
  device_type : Option String := none
  user_agent : Option String := none
deriving DecidableEq, Repr

/-- `parseUserAgent` (datadog-service.ts): returns the empty object `{}` on a
falsy user agent; otherwise classifies browser, OS and device type by the
three pattern tables, first match winning, defaulting to `unknown`/empty. -/
def parseUserAgent (userAgent : Option String) : UAInfo :=
  if !(jsTruthy userAgent) then {} else
  let ua := (userAgent.getD "").data
  let browserHit := firstUAMatch browserPatterns ua
  let browser := (browserHit.map Prod.fst).getD "unknown"
  let browserVersion := (browserHit.map (fun h => String.mk h.2)).getD ""
  let osHit := firstUAMatch osPatterns ua
  let operatingSystem := (osHit.map Prod.fst).getD "unknown"
  let osVersion := (osHit.map (fun h => renderOsVersion h.2)).getD ""
  let deviceHit := devicePatterns.find? (fun d => d.2.any (fun lit => searchLit lit.data ua))
  let deviceType := (deviceHit.map Prod.fst).getD "unknown"
  { browser := some browser,
    browser_version := some browserVersion,
    operating_system := some operatingSystem,
    os_version := some osVersion,
    device_type := some deviceType,
    user_agent := some (String.mk ua) }

/-- `log.duration < 100 ? 'fast' : log.duration < 500 ? 'normal' : 'slow'`. -/
def performanceCategory (duration : Int) : String :=
  if duration < 100 then "fast" else if duration < 500 then "normal" else "slow"

/-- `hasError ? 'error' : performanceCategory === 'slow' ? 'warn' : 'info'`. -/
def logLevelOf (hasError : Bool) (perf : String) : String :=
  if hasError then "error" else if perf == "slow" then "warn" else "info"

/-- String interpolation of a possibly-absent value in a template literal
(`undefined` renders as the string `undefined`). -/
def renderOpt : Option String → String
  | none => "undefined"
  | some s => s

/-- The `dd` trace-correlation block of the exported entry. -/
structure DDCorrelation where
  trace_id : String
  span_id : String
deriving DecidableEq, Repr

/-- The `timing` sub-block of `additionalProperties`. -/
structure TimingBlock where
  start_time : Int
  end_time : Int
  duration_ms : Int
  performance_category : String
deriving DecidableEq, Repr

/-- The `additionalProperties` block of the exported entry; `none` models an
absent property (conditional spreads). -/
structure AdditionalProps where
  call_id : String
  procedure : String
  duration : Int
  performance_category : String
  trpc_method : String
  session_id : String
  user_id : String
  http_method : String
  http_url : String
  client_ip : Option String
  referer : Option String
  origin : Option String
  accept_language : Option String
  accept_encoding : Option String
  request_id : Option String
  browser : Option String
  browser_version : Option String
  operating_system : Option String
  os_version : Option String
  device_type : Option String
  user_agent : Option String
  has_error : Bool
  error_message : Option String
  error_type : Option String
  request_payload : Option String
  response_payload : Option String
  timing : TimingBlock
  trace : Option TraceSnapshot
deriving DecidableEq, Repr

/-- The structured entry submitted to the Datadog sink by `logSingleCall`. -/
structure DatadogLogEntry where
  message : String
  status : String
  service : String
  ddsource : String
  ddtags : String
  hostname : String
  timestamp : Int
  dd : DDCorrelation
  additionalProperties : AdditionalProps
deriving DecidableEq, Repr

/-- Assembly of the `logEntry` object of `logSingleCall` (datadog-service.ts). -/
def buildLogEntry (ddTraceId ddSpanId sessionId userId : String)
    (log : TRPCCallLog) : DatadogLogEntry :=
  let perf := performanceCategory log.duration
  let hasError := jsTruthy log.error
  let logLevel := logLevelOf hasError perf
  let deviceInfo := parseUserAgent log.metadata.userAgent
  { message := logLevel.toUpper ++ ": TRPC call: [" ++ log.procedure ++ "] ("
      ++ toString log.duration ++ "ms)",
    status := logLevel,
    service := "zero-mail-app",
    ddsource := "trpc-logging",
    ddtags := "session:" ++ sessionId ++ ",user:" ++ userId ++ ",procedure:"
      ++ log.procedure ++ ",duration:" ++ toString log.duration ++ "ms,has_error:"
      ++ (if hasError then "true" else "false") ++ ",performance:" ++ perf
      ++ ",browser:" ++ renderOpt deviceInfo.browser
      ++ ",device:" ++ renderOpt deviceInfo.device_type,
    hostname := "cloudflare-worker",
    timestamp := log.timestamp,
    dd := { trace_id := ddTraceId, span_id := ddSpanId },
    additionalProperties :=
      { call_id := log.id,
        procedure := log.procedure,
        duration := log.duration,
        performance_category := perf,
        trpc_method := log.metadata.method.render,
        session_id := sessionId,
        user_id := userId,
        http_method := "POST",
        http_url := "/api/trpc/" ++ log.procedure,
        client_ip := log.metadata.ip,
        referer := log.metadata.referer,
        origin := log.metadata.origin,
        accept_language := log.metadata.acceptLanguage,
        accept_encoding := log.metadata.acceptEncoding,
        request_id := log.metadata.requestId,
        browser := deviceInfo.browser,
        browser_version := deviceInfo.browser_version,
        operating_system := deviceInfo.operating_system,
        os_version := deviceInfo.os_version,
        device_type := deviceInfo.device_type,
        user_agent := deviceInfo.user_agent,
        has_error := hasError,
        error_message := if hasError then log.error else none,
        error_type := if hasError then some "trpc_error" else none,
        request_payload := log.input,
        response_payload := if jsTruthy log.output then log.output else none,
        timing :=
          { start_time := jsOrInt log.metadata.startTime log.timestamp,
            end_time := jsOrInt log.metadata.endTime (log.timestamp + log.duration),
            duration_ms := log.duration,
            performance_category := perf },
        trace := log.trace } }

/-- `DatadogService.logSingleCall`: suppressed entirely for self-referential
logging procedures; otherwise the entry is built and handed to the sink, any
sink failure being caught and logged locally.  The returned value is the entry
submitted to the sink (`none` when nothing was submitted); `submit` is the
external `apiInstance.submitLog` with its possible failure. -/
def logSingleCall (submit : DatadogLogEntry → Except String Unit)
    (ddTraceId ddSpanId sessionId userId : String) (log : TRPCCallLog) :
    Option DatadogLogEntry :=
  if isLoggingProcedure log.procedure then none
  else
    let entry := buildLogEntry ddTraceId ddSpanId sessionId userId log
    match submit entry with
    | .ok _ => some entry
    | .error _ => some entry

/-- types/logging.ts `LoggingState`: the per-session aggregate. -/
structure LoggingState where
  sessionId : String
  userId : String
  startedAt : Int
  lastActivity : Int
  totalCalls : Int
  totalErrors : Int
  totalDuration : Int
deriving DecidableEq, Repr

/-- types/logging.ts `SessionStats`: the derived statistics record
(`averageDuration` and `errorRate` are exact number divisions). -/
structure SessionStats where
  totalCalls : Int
  totalErrors : Int
  totalDuration : Int
  averageDuration : ℚ
  errorRate : ℚ
  sessionDuration : Int
deriving DecidableEq, Repr

/-- The module-level `sessionStats` map of logging-service.ts. -/
abbrev SessionMap := List (String × LoggingState)

/-- `sessionStats.get(sessionId)`. -/
def lookupSession (sessionId : String) (m : SessionMap) : Option LoggingState :=
  assocLookup sessionId m

/-- `sessionStats.set(sessionId, state)`. -/
def setSession (k : String) (v : LoggingState) (m : SessionMap) : SessionMap :=
  assocSet k v m

/-- `LoggingService.updateSessionStats` (the per-call stats recording):
creates a zero aggregate on first sight of the session, then bumps
`lastActivity`, `totalCalls`, `totalDuration` and, when the log carries a
truthy error, `totalErrors`. -/
def updateSessionStats (now : Int) (sessionId userId : String)
    (log : TRPCCallLog) (m : SessionMap) : SessionMap :=
  let currentState : LoggingState :=
    match lookupSession sessionId m with
    | some st => st
    | none =>
      { sessionId := sessionId, userId := userId, startedAt := now,
        lastActivity := now, totalCalls := 0, totalErrors := 0, totalDuration := 0 }
  let st :=
    { currentState with
      lastActivity := log.timestamp,
      totalCalls := currentState.totalCalls + 1,
      totalDuration := currentState.totalDuration + log.duration,
      totalErrors := currentState.totalErrors + (if jsTruthy log.error then 1 else 0) }
  setSession sessionId st m

/-- `LoggingService.getState`: returns the aggregate, inserting a fresh zeroed
one (empty userId, startedAt = lastActivity = now) when the session is new. -/
def getState (now : Int) (sessionId : String) (m : SessionMap) :
    LoggingState × SessionMap :=
  match lookupSession sessionId m with
  | some st => (st, m)
  | none =>
    let st : LoggingState :=
      { sessionId := sessionId, userId := "", startedAt := now,
        lastActivity := now, totalCalls := 0, totalErrors := 0, totalDuration := 0 }
    (st, setSession sessionId st m)

/-- `LoggingService.initializeSession`: rebinds user and timestamps without
clearing counters. -/
def initializeSession (now : Int) (sessionId userId : String) (m : SessionMap) :
    SessionMap :=
  let res := getState now sessionId m
  let st1 : LoggingState :=
    { res.1 with userId := userId, sessionId := sessionId,
                 startedAt := now, lastActivity := now }
  setSession sessionId st1 res.2

/-- `LoggingService.getSessionStats`: derives averages and rates from the
aggregate, guarding the divisions by `totalCalls > 0`. -/
def getSessionStats (now : Int) (sessionId : String) (m : SessionMap) :
    SessionStats × SessionMap :=
  let (state, m1) := getState now sessionId m
  ({ totalCalls := state.totalCalls,
     totalErrors := state.totalErrors,
     totalDuration := state.totalDuration,
     averageDuration :=
       if state.totalCalls > 0 then (state.totalDuration : ℚ) / (state.totalCalls : ℚ) else 0,
     errorRate :=
       if state.totalCalls > 0 then (state.totalErrors : ℚ) / (state.totalCalls : ℚ) * 100 else 0,
     sessionDuration := now - state.startedAt }, m1)

/-- `LoggingService.clearSession`: replaces the aggregate with a fresh zeroed
one (not a deletion). -/
def clearSession (now : Int) (sessionId : String) (m : SessionMap) : SessionMap :=
  setSession sessionId
    { sessionId := sessionId, userId := "", startedAt := now,
      lastActivity := now, totalCalls := 0, totalErrors := 0, totalDuration := 0 } m

/-- Stamping of identifier and timestamp at the top of `logCall`. -/
def mkLog (now : Int) (freshId : String) (cd : TRPCCallInput) : TRPCCallLog :=
  { id := freshId, timestamp := now, userId := cd.userId, sessionId := cd.sessionId,
    procedure := cd.procedure, input := cd.input, output := cd.output,
    error := cd.error, duration := cd.duration, metadata := cd.metadata,
    trace := cd.trace }

/-- `LoggingService.logCall`: stamps id and timestamp, exports via
`logSingleCall` inside a try/catch (a failure is logged and swallowed), then
unconditionally updates the session stats.  The result carries the entry
submitted to the sink (`none` when suppressed) and the new session map; the
`Except` layer records whether anything escaped to the caller. -/
def logCall (submit : DatadogLogEntry → Except String Unit) (now : Int)
    (freshId ddTraceId ddSpanId : String) (cd : TRPCCallInput) (m : SessionMap) :
    Except String (Option DatadogLogEntry × SessionMap) :=
  let log := mkLog now freshId cd
  let submitted := logSingleCall submit ddTraceId ddSpanId cd.sessionId cd.userId log
  .ok (submitted, updateSessionStats now cd.sessionId cd.userId log m)

/-- The counters of a session aggregate: (totalCalls, totalErrors,
totalDuration), zero when the session is unknown. -/
def sessionCounters (sessionId : String) (m : SessionMap) : Int × Int × Int :=
  match lookupSession sessionId m with
  | some st => (st.totalCalls, st.totalErrors, st.totalDuration)
  | none => (0, 0, 0)

/-- `SessionStatsAggregator.recordCall` iterated over a list of calls for one
session, each paired with the wall-clock time of its recording. -/
def recordCalls (sessionId userId : String) (calls : List (Int × TRPCCallLog))
    (m : SessionMap) : SessionMap :=
  calls.foldl (fun acc c => updateSessionStats c.1 sessionId userId c.2 acc) m

/-- Number of calls in a recording list that carry a truthy error. -/
def countErrors (calls : List (Int × TRPCCallLog)) : Nat :=
  (calls.filter (fun c => jsTruthy c.2.error)).length

/-- Sum of the durations of a recording list. -/
def sumDurations (calls : List (Int × TRPCCallLog)) : Int :=
  (calls.map (fun c => c.2.duration)).sum

/-- One observable operation on the trace store; the explicit `now` arguments
model the wall clock, the fresh ids the `crypto.randomUUID` draws, and
`timeoutDelete` the deferred deletion scheduled by `completeTrace`. -/
inductive Op where
  | createTrace (now : Int) (traceId : String) (md : TraceMetadata)
  | addSpan (now : Int) (freshId : String) (traceId : String) (spec : SpanSpec)
  | completeSpan (now : Int) (traceId spanId : String) (md : Option JsRecord) (err : Option String)
  | completeTrace (now : Int) (traceId : String)
  | timeoutDelete (traceId : String)
  | cleanup (now : Int)
  | destroy
deriving Repr

/-- The state transition of one operation (a throwing `addSpan` leaves the
store unchanged, since the throw happens before the span is appended). -/
def applyOp : Op → TraceContextState → TraceContextState
  | .createTrace now tid md, s => (createTrace now tid md s).2
  | .addSpan now fid tid spec, s =>
    match addSpan now fid tid spec s with
    | .ok (_, s1) => s1
    | .error _ => s
  | .completeSpan now tid spid md err, s => completeSpan now tid spid md err s
  | .completeTrace now tid, s => (completeTrace now tid s).2
  | .timeoutDelete tid, s => ⟨mapDelete tid s.traces⟩
  | .cleanup now, s => performCleanup now s
  | .destroy, _ => ⟨[]⟩

/-- A sequence of operations applied from a starting state. -/
def applyOps (ops : List Op) (s : TraceContextState) : TraceContextState :=
  ops.foldl (fun acc op => applyOp op acc) s

/-- Status of the first span with a given id inside a given trace, if any. -/
def spanStatus (traceId spanId : String) (s : TraceContextState) : Option SpanStatus :=
  (lookupTrace traceId s).bind
    (fun tr => (tr.spans.find? (fun sp => sp.id == spanId)).map TraceSpan.status)

/-- A call metadata block with only the mandatory method kind set. -/
def queryMeta : CallMetadata := { method := .query }

/-- A trace that started at time 0, used in boundary examples. -/
def traceAtZero : RequestTrace :=
  { traceId := "t1", startTime := 0, spans := [], metadata := {} }

/-- A one-trace store whose single trace has age exactly `TRACE_TTL_MS` at
time `TRACE_TTL_MS`. -/
def boundaryStore : TraceContextState := ⟨[("t1", traceAtZero)]⟩

/-- A store holding one stale and one fresh trace. -/
def mixedStore : TraceContextState :=
  ⟨[("t1", traceAtZero),
    ("t2", { traceId := "t2", startTime := 1000000, spans := [], metadata := {} })]⟩

/-- Distinct string keys for the capacity-eviction example. -/
def natKey (i : Nat) : String := String.mk (List.replicate i 'a')

/-- One fresh trace entry keyed by `natKey i`, started at time 0. -/
def overfullEntry (i : Nat) : String × RequestTrace :=
  (natKey i, { traceId := natKey i, startTime := 0, spans := [], metadata := {} })

/-- A store of `MAX_TRACES + 1` fresh traces with pairwise-distinct keys. -/
def overfullStore : TraceContextState :=
  ⟨(List.range (MAX_TRACES + 1)).map overfullEntry⟩

/-- A request context carrying a trace id in its context variables. -/
def ctxWithId : Ctx := { varTraceId := some "t1" }

/-- A request context from which no trace id resolves. -/
def ctxNoId : Ctx := {}

/-- Operation sequence: create a trace, start a span, complete it with an
error, then complete it again without one. -/
def opsToError : List Op :=
  [.createTrace 0 "t" {}, .addSpan 1 "sp" "t" { name := "db.query" },
   .completeSpan 2 "t" "sp" none (some "boom")]

/-- `opsToError` followed by a second, error-free completion of the span. -/
def opsReverted : List Op :=
  opsToError ++ [.completeSpan 3 "t" "sp" none none]

/-- A call to one of the self-referential logging procedures. -/
def loggingCall : TRPCCallInput :=
  { userId := "u1", sessionId := "s1", procedure := "logging.getSessionStats",
    input := none, duration := 7, metadata := queryMeta }

/-- An ordinary call with no error. -/
def plainCall : TRPCCallLog :=
  { id := "c1", timestamp := 3, userId := "u1", sessionId := "s1",
    procedure := "mail.send", input := none, duration := 10, metadata := queryMeta }

/-- An ordinary call carrying an error. -/
def errorCall : TRPCCallLog :=
  { id := "c2", timestamp := 4, userId := "u1", sessionId := "s1",
    procedure := "mail.send", input := none, error := some "boom",
    duration := 32, metadata := queryMeta }


theorem assocDelete_sublist {α : Type} (k : String) (m : List (String × α)) :
    List.Sublist (assocDelete k m) m :=
  List.eraseP_sublist m

theorem foldlDelete_sublist {α : Type} (ks : List String) (m : List (String × α)) :
    List.Sublist (ks.foldl (fun acc k => assocDelete k acc) m) m := by
  induction ks generalizing m with
  | nil => exact List.Sublist.refl m
  | cons k ks ih =>
    exact List.Sublist.trans (ih (assocDelete k m)) (assocDelete_sublist k m)

theorem assocLookup_mem {α : Type} {k : String} {m : List (String × α)} {v : α}
    (h : assocLookup k m = some v) : (k, v) ∈ m := by
  unfold assocLookup at h
  cases hf : m.find? (fun e => e.1 == k) with
  | none => rw [hf] at h; cases h
  | some e =>
    rw [hf] at h
    have hkey : e.1 = k := by
      have := List.find?_some hf
      simpa using this
    have hmem := List.mem_of_find?_eq_some hf
    have hv : e.2 = v := by simpa using h
    have : (k, v) = e := by
      cases e
      simp_all
    rw [this]
    exact hmem

theorem nodup_assoc_unique {α : Type} {m : List (String × α)}
    (h : (m.map Prod.fst).Nodup) {k : String} {a b : α}
    (ha : (k, a) ∈ m) (hb : (k, b) ∈ m) : a = b := by
  induction m with
  | nil => cases ha
  | cons e m ih =>
    rw [List.map_cons, List.nodup_cons] at h
    rcases List.mem_cons.mp ha with ha1 | ha1 <;>
      rcases List.mem_cons.mp hb with hb1 | hb1
    · have hab : (k, a) = (k, b) := ha1.trans hb1.symm
      exact congrArg Prod.snd hab
    · exfalso
      apply h.1
      rw [← ha1]
      exact List.mem_map.mpr ⟨(k, b), hb1, rfl⟩
    · exfalso
      apply h.1
      rw [← hb1]
      exact List.mem_map.mpr ⟨(k, a), ha1, rfl⟩
    · exact ih h.2 ha1 hb1

theorem mem_assocLookup {α : Type} {m : List (String × α)}
    (h : (m.map Prod.fst).Nodup) {k : String} {v : α}
    (hm : (k, v) ∈ m) : assocLookup k m = some v := by
  induction m with
  | nil => cases hm
  | cons e m ih =>
    rw [List.map_cons, List.nodup_cons] at h
    rcases List.mem_cons.mp hm with h1 | h1
    · rw [← h1]
      unfold assocLookup
      simp [List.find?_cons]
    · by_cases hk : e.1 = k
      · exfalso
        apply h.1
        rw [hk]
        exact List.mem_map.mpr ⟨(k, v), h1, rfl⟩
      · unfold assocLookup
        rw [List.find?_cons]
        have : (e.1 == k) = false := by
          simpa using hk
        rw [this]
        exact ih h.2 h1

theorem assocLookup_of_sublist {α : Type} {m1 m2 : List (String × α)}
    (hs : List.Sublist m1 m2) (h : (m2.map Prod.fst).Nodup) {k : String} {v : α}
    (hl : assocLookup k m1 = some v) : assocLookup k m2 = some v :=
  mem_assocLookup h (hs.mem (assocLookup_mem hl))

theorem assocLookup_eq_none {α : Type} {k : String} {m : List (String × α)} :
    assocLookup k m = none ↔ ∀ e ∈ m, e.1 ≠ k := by
  unfold assocLookup
  rw [Option.map_eq_none']
  rw [List.find?_eq_none]
  constructor
  · intro h e he
    have := h e he
    simpa using this
  · intro h e he
    simpa using h e he

theorem assocLookup_update_self {α : Type} (k : String) (f : α → α)
    (m : List (String × α)) :
    assocLookup k (assocUpdate k f m) = (assocLookup k m).map f := by
  induction m with
  | nil => rfl
  | cons e m ih =>
    unfold assocUpdate at ih ⊢
    unfold assocLookup at ih ⊢
    by_cases he : e.1 = k
    · have hb : (e.1 == k) = true := by simpa using he
      simp only [List.map_cons, hb, if_true, List.find?_cons]
      simp
    · have hb : (e.1 == k) = false := by simpa using he
      simp only [List.map_cons, hb, if_false, List.find?_cons, Bool.false_eq_true]
      exact ih

theorem assocLookup_update_ne {α : Type} {k k2 : String} (h : k2 ≠ k)
    (f : α → α) (m : List (String × α)) :
    assocLookup k2 (assocUpdate k f m) = assocLookup k2 m := by
  induction m with
  | nil => rfl
  | cons e m ih =>
    unfold assocUpdate at ih ⊢
    unfold assocLookup at ih ⊢
    by_cases he : e.1 = k
    · have hb : (e.1 == k) = true := by simpa using he
      have hb2 : (e.1 == k2) = false := by
        have : e.1 ≠ k2 := by rw [he]; exact fun hh => h hh.symm
        simpa using this
      have hb3 : (k == k2) = false := by
        have : k ≠ k2 := fun hh => h hh.symm
        simpa using this
      simp only [List.map_cons, hb, if_true, List.find?_cons, hb3, hb2]
      simpa using ih
    · have hb : (e.1 == k) = false := by simpa using he
      simp only [List.map_cons, hb, if_false, List.find?_cons, Bool.false_eq_true]
      by_cases he2 : e.1 = k2
      · have hb2 : (e.1 == k2) = true := by simpa using he2
        rw [hb2]
      · have hb2 : (e.1 == k2) = false := by simpa using he2
        rw [hb2]
        simpa using ih

theorem keys_assocUpdate {α : Type} (k : String) (f : α → α)
    (m : List (String × α)) :
    (assocUpdate k f m).map Prod.fst = m.map Prod.fst := by
  unfold assocUpdate
  rw [List.map_map]
  apply List.map_congr_left
  intro e _
  by_cases he : e.1 = k
  · have hb : (e.1 == k) = true := by simpa using he
    simp [Function.comp, hb]
  · have hb : (e.1 == k) = false := by simpa using he
    simp [Function.comp, hb]

theorem length_assocUpdate {α : Type} (k : String) (f : α → α)
    (m : List (String × α)) :
    (assocUpdate k f m).length = m.length := by
  unfold assocUpdate
  exact List.length_map m _



theorem mapSet_eq_update {α : Type} (k : String) (v : α) (m : List (String × α)) :
    m.map (fun e => if e.1 == k then (k, v) else e) = assocUpdate k (fun _ => v) m := by
  unfold assocUpdate
  apply List.map_congr_left
  intro e _
  by_cases hc : (e.1 == k) = true
  · have he : e.1 = k := by simpa using hc
    rw [if_pos hc, if_pos hc, he]
  · rw [if_neg hc, if_neg hc]

theorem assocLookup_isSome_of_any {α : Type} {k : String} {m : List (String × α)}
    (hany : m.any (fun e => e.1 == k) = true) : ∃ w, assocLookup k m = some w := by
  cases hl : assocLookup k m with
  | some w => exact ⟨w, rfl⟩
  | none =>
    exfalso
    rw [assocLookup_eq_none] at hl
    rw [List.any_eq_true] at hany
    obtain ⟨e, he, hk⟩ := hany
    exact hl e he (by simpa using hk)

theorem assocLookup_append {α : Type} (k : String) (m1 m2 : List (String × α)) :
    assocLookup k (m1 ++ m2) =
      match assocLookup k m1 with
      | some v => some v
      | none => assocLookup k m2 := by
  unfold assocLookup
  rw [List.find?_append]
  cases m1.find? (fun e => e.1 == k) <;> simp

theorem assocLookup_set_self {α : Type} (k : String) (v : α)
    (m : List (String × α)) : assocLookup k (assocSet k v m) = some v := by
  unfold assocSet
  by_cases hany : m.any (fun e => e.1 == k) = true
  · rw [if_pos hany, mapSet_eq_update, assocLookup_update_self]
    obtain ⟨w, hw⟩ := assocLookup_isSome_of_any hany
    rw [hw]
    rfl
  · rw [if_neg hany, assocLookup_append]
    have hnone : assocLookup k m = none := by
      rw [assocLookup_eq_none]
      intro e he hk
      apply hany
      rw [List.any_eq_true]
      exact ⟨e, he, by simpa using hk⟩
    rw [hnone]
    simp [assocLookup, List.find?_cons]

theorem assocLookup_set_ne {α : Type} {k k2 : String} (h : k2 ≠ k) (v : α)
    (m : List (String × α)) :
    assocLookup k2 (assocSet k v m) = assocLookup k2 m := by
  unfold assocSet
  by_cases hany : m.any (fun e => e.1 == k) = true
  · rw [if_pos hany, mapSet_eq_update, assocLookup_update_ne h]
  · rw [if_neg hany, assocLookup_append]
    have hkk : (k == k2) = false := by
      have : k ≠ k2 := fun hh => h hh.symm
      simpa using this
    cases hf : assocLookup k2 m with
    | some e => simp
    | none => simp [assocLookup, List.find?_cons, hkk]

theorem assocSet_absent {α : Type} {k : String} {m : List (String × α)}
    (h : assocLookup k m = none) (v : α) : assocSet k v m = m ++ [(k, v)] := by
  unfold assocSet
  rw [if_neg]
  intro hany
  rw [List.any_eq_true] at hany
  obtain ⟨e, he, hk⟩ := hany
  exact (assocLookup_eq_none.mp h) e he (by simpa using hk)

theorem nodup_keys_sublist {α : Type} {m1 m2 : List (String × α)}
    (hs : List.Sublist m1 m2) (h : (m2.map Prod.fst).Nodup) :
    (m1.map Prod.fst).Nodup :=
  h.sublist (hs.map Prod.fst)

theorem assocDelete_nodup_eq_filter {α : Type} {m : List (String × α)}
    (h : (m.map Prod.fst).Nodup) (k : String) :
    assocDelete k m = m.filter (fun e => !(e.1 == k)) := by
  induction m with
  | nil => rfl
  | cons e m ih =>
    rw [List.map_cons, List.nodup_cons] at h
    unfold assocDelete at ih ⊢
    rw [List.eraseP_cons, List.filter_cons]
    cases hbe : (e.1 == k) with
    | true =>
      have he : e.1 = k := by simpa using hbe
      simp only [Bool.not_true, Bool.false_eq_true, if_false]
      have : m.filter (fun e2 => !(e2.1 == k)) = m := by
        apply List.filter_eq_self.mpr
        intro e2 he2
        have : e2.1 ≠ k := by
          intro hk
          apply h.1
          rw [he, ← hk]
          exact List.mem_map.mpr ⟨e2, he2, rfl⟩
        simpa using this
      rw [this]
      rfl
    | false =>
      simp only [Bool.not_false, if_true]
      rw [ih h.2]
      rfl

theorem foldlDelete_nodup_eq_filter {α : Type} {m : List (String × α)}
    (h : (m.map Prod.fst).Nodup) (ks : List String) :
    ks.foldl (fun acc k => assocDelete k acc) m =
      m.filter (fun e => ks.all (fun k2 => !(e.1 == k2))) := by
  induction ks generalizing m with
  | nil =>
    rw [List.foldl_nil]
    symm
    apply List.filter_eq_self.mpr
    intro e _
    rfl
  | cons k ks ih =>
    rw [List.foldl_cons]
    have h2 : ((m.filter (fun e => !(e.1 == k))).map Prod.fst).Nodup :=
      nodup_keys_sublist (List.filter_sublist m) h
    rw [assocDelete_nodup_eq_filter h k, ih h2, List.filter_filter]
    apply List.filter_congr
    intro e _
    rw [List.all_cons, Bool.and_comm]

theorem updateFirst_length {α : Type} (p : α → Bool) (f : α → α) (l : List α) :
    (updateFirst p f l).length = l.length := by
  induction l with
  | nil => rfl
  | cons x xs ih =>
    unfold updateFirst
    by_cases hp : p x = true
    · rw [if_pos hp]
      rfl
    · rw [if_neg hp]
      simpa using ih

theorem updateFirst_getElem (p : α → Bool) (f : α → α) (l : List α) (i : Nat) :
    (updateFirst p f l)[i]? = l[i]? ∨ (updateFirst p f l)[i]? = l[i]?.map f := by
  induction l generalizing i with
  | nil => left; rfl
  | cons x xs ih =>
    simp only [updateFirst]
    by_cases hp : p x = true
    · rw [if_pos hp]
      cases i with
      | zero => right; simp
      | succ j => left; simp
    · rw [if_neg hp]
      cases i with
      | zero => left; simp
      | succ j => simpa using ih j

theorem foldlMapDelete_eq (ks : List String) (m : List (String × RequestTrace)) :
    ks.foldl (fun m k => mapDelete k m) m = ks.foldl (fun acc k => assocDelete k acc) m :=
  rfl

theorem afterTTLPass_sublist (now : Int) (s : TraceContextState) :
    List.Sublist (afterTTLPass now s) s.traces := by
  unfold afterTTLPass
  rw [foldlMapDelete_eq]
  exact foldlDelete_sublist (ttlDoomed now s) s.traces

theorem performCleanup_sublist (now : Int) (s : TraceContextState) :
    List.Sublist (performCleanup now s).traces s.traces := by
  have h : ∀ ks : List String,
      List.Sublist (ks.foldl (fun m k => mapDelete k m) (afterTTLPass now s)) s.traces := by
    intro ks
    rw [foldlMapDelete_eq]
    exact List.Sublist.trans (foldlDelete_sublist ks (afterTTLPass now s))
      (afterTTLPass_sublist now s)
  simp only [performCleanup]
  split
  · apply h
  · exact afterTTLPass_sublist now s

theorem afterTTLPass_nodup_eq_filter {s : TraceContextState} (hnd : nodupKeys s)
    (now : Int) :
    afterTTLPass now s =
      s.traces.filter (fun e => !(decide (now - e.2.startTime > TRACE_TTL_MS))) := by
  unfold afterTTLPass
  rw [foldlMapDelete_eq, foldlDelete_nodup_eq_filter hnd]
  apply List.filter_congr
  intro e he
  unfold ttlDoomed
  by_cases hp : now - e.2.startTime > TRACE_TTL_MS
  · have hmem : e.1 ∈ (s.traces.filter
        (fun e2 => decide (now - e2.2.startTime > TRACE_TTL_MS))).map Prod.fst := by
      apply List.mem_map.mpr
      refine ⟨e, ?_, rfl⟩
      exact List.mem_filter.mpr ⟨he, by simpa using hp⟩
    have hall : ((s.traces.filter (fun e2 => decide (now - e2.2.startTime > TRACE_TTL_MS))).map
        Prod.fst).all (fun k2 => !(e.1 == k2)) = false := by
      by_contra hcon
      have htrue := eq_true_of_ne_false hcon
      have := (List.all_eq_true.mp htrue) e.1 hmem
      simp at this
    rw [hall]
    simp [hp]
  · have hall : ((s.traces.filter (fun e2 => decide (now - e2.2.startTime > TRACE_TTL_MS))).map
        Prod.fst).all (fun k2 => !(e.1 == k2)) = true := by
      rw [List.all_eq_true]
      intro k2 hk2
      obtain ⟨e2, he2, hk2eq⟩ := List.mem_map.mp hk2
      have he2f := List.mem_filter.mp he2
      by_contra hcon
      have hbeq : (e.1 == k2) = true := by
        cases hb : (e.1 == k2) with
        | true => rfl
        | false => rw [hb] at hcon; simp at hcon
      have hkeq : e.1 = e2.1 := by
        rw [← hk2eq] at hbeq
        simpa using hbeq
      have hsame : e.2 = e2.2 := by
        apply nodup_assoc_unique hnd (k := e.1)
        · exact (Prod.mk.eta (p := e)) ▸ he
        · rw [hkeq]
          exact (Prod.mk.eta (p := e2)) ▸ he2f.1
      apply hp
      have := he2f.2
      rw [← hsame] at this
      simpa using this
    rw [hall]
    simp [hp]

theorem performCleanup_eq_of_over {now : Int} {s : TraceContextState}
    (h : (afterTTLPass now s).length > MAX_TRACES) :
    (performCleanup now s).traces =
      ((((afterTTLPass now s).insertionSort byStart).take
          ((afterTTLPass now s).length - MAX_TRACES)).map Prod.fst).foldl
        (fun m k => mapDelete k m) (afterTTLPass now s) := by
  simp only [performCleanup]
  rw [if_pos h]

theorem performCleanup_eq_of_under {now : Int} {s : TraceContextState}
    (h : ¬ (afterTTLPass now s).length > MAX_TRACES) :
    (performCleanup now s).traces = afterTTLPass now s := by
  simp only [performCleanup]
  rw [if_neg h]

theorem filter_take_drop {α : Type} (p : α → Bool) (L : List α) (n : Nat)
    (h1 : ∀ e ∈ L.take n, p e = false) (h2 : ∀ e ∈ L.drop n, p e = true) :
    L.filter p = L.drop n := by
  conv_lhs => rw [← List.take_append_drop n L]
  rw [List.filter_append]
  rw [List.filter_eq_nil_iff.mpr (fun e he => by rw [h1 e he]; simp)]
  rw [List.filter_eq_self.mpr h2, List.nil_append]

theorem capacity_core {l : List (String × RequestTrace)}
    (hnd : (l.map Prod.fst).Nodup) (_hlen : l.length > MAX_TRACES) :
    (((l.insertionSort byStart).take (l.length - MAX_TRACES)).map Prod.fst).foldl
        (fun m k => mapDelete k m) l =
      l.filter (fun e =>
        (((l.insertionSort byStart).take (l.length - MAX_TRACES)).map Prod.fst).all
          (fun k2 => !(e.1 == k2))) ∧
    List.Perm
      ((((l.insertionSort byStart).take (l.length - MAX_TRACES)).map Prod.fst).foldl
        (fun m k => mapDelete k m) l)
      ((l.insertionSort byStart).drop (l.length - MAX_TRACES)) ∧
    List.Sorted byStart (l.insertionSort byStart) := by
  refine ⟨?_, ?_, List.sorted_insertionSort byStart l⟩
  · rw [foldlMapDelete_eq, foldlDelete_nodup_eq_filter hnd]
  · rw [foldlMapDelete_eq, foldlDelete_nodup_eq_filter hnd]
    have hperm : (l.insertionSort byStart).Perm l := List.perm_insertionSort byStart l
    have hsortnd : ((l.insertionSort byStart).map Prod.fst).Nodup :=
      ((hperm.map Prod.fst).nodup_iff).mpr hnd
    have hsplit : l.insertionSort byStart =
        (l.insertionSort byStart).take (l.length - MAX_TRACES) ++
          (l.insertionSort byStart).drop (l.length - MAX_TRACES) :=
      (List.take_append_drop _ _).symm
    have hndapp : (((l.insertionSort byStart).take (l.length - MAX_TRACES)).map Prod.fst ++
        ((l.insertionSort byStart).drop (l.length - MAX_TRACES)).map Prod.fst).Nodup := by
      rw [← List.map_append, ← hsplit]
      exact hsortnd
    have hdisj := (List.nodup_append.mp hndapp).2.2
    have htake : ∀ e ∈ (l.insertionSort byStart).take (l.length - MAX_TRACES),
        (((l.insertionSort byStart).take (l.length - MAX_TRACES)).map Prod.fst).all
          (fun k2 => !(e.1 == k2)) = false := by
      intro e he
      cases hb : (((l.insertionSort byStart).take (l.length - MAX_TRACES)).map Prod.fst).all
          (fun k2 => !(e.1 == k2)) with
      | false => rfl
      | true =>
        exfalso
        have hm : e.1 ∈ ((l.insertionSort byStart).take (l.length - MAX_TRACES)).map Prod.fst :=
          List.mem_map.mpr ⟨e, he, rfl⟩
        have := List.all_eq_true.mp hb e.1 hm
        simp at this
    have hdrop : ∀ e ∈ (l.insertionSort byStart).drop (l.length - MAX_TRACES),
        (((l.insertionSort byStart).take (l.length - MAX_TRACES)).map Prod.fst).all
          (fun k2 => !(e.1 == k2)) = true := by
      intro e he
      rw [List.all_eq_true]
      intro k2 hk2
      obtain ⟨e2, he2, hk2eq⟩ := List.mem_map.mp hk2
      by_contra hcon
      have hbeq : (e.1 == k2) = true := by
        cases hb : (e.1 == k2) with
        | true => rfl
        | false => rw [hb] at hcon; simp at hcon
      have hkeq : e.1 = k2 := by simpa using hbeq
      apply hdisj hk2
      rw [← hkeq]
      exact List.mem_map.mpr ⟨e, he, rfl⟩
    have hfiltereq : (l.insertionSort byStart).filter (fun e =>
          (((l.insertionSort byStart).take (l.length - MAX_TRACES)).map Prod.fst).all
            (fun k2 => !(e.1 == k2))) =
        (l.insertionSort byStart).drop (l.length - MAX_TRACES) :=
      filter_take_drop _ _ _ htake hdrop
    have hstep : List.Perm
        (l.filter (fun e =>
          (((l.insertionSort byStart).take (l.length - MAX_TRACES)).map Prod.fst).all
            (fun k2 => !(e.1 == k2))))
        ((l.insertionSort byStart).filter (fun e =>
          (((l.insertionSort byStart).take (l.length - MAX_TRACES)).map Prod.fst).all
            (fun k2 => !(e.1 == k2)))) := (hperm.symm).filter _
    rw [hfiltereq] at hstep
    exact hstep

theorem performCleanup_sub_afterTTL (now : Int) (s : TraceContextState) :
    List.Sublist (performCleanup now s).traces (afterTTLPass now s) := by
  by_cases h : (afterTTLPass now s).length > MAX_TRACES
  · rw [performCleanup_eq_of_over h, foldlMapDelete_eq]
    exact foldlDelete_sublist _ _
  · rw [performCleanup_eq_of_under h]

theorem performCleanup_nodup (now : Int) {s : TraceContextState}
    (hnd : nodupKeys s) : nodupKeys (performCleanup now s) :=
  nodup_keys_sublist (performCleanup_sublist now s) hnd

theorem performCleanup_length_le (now : Int) {s : TraceContextState}
    (hnd : nodupKeys s) : (performCleanup now s).traces.length ≤ MAX_TRACES := by
  by_cases h : (afterTTLPass now s).length > MAX_TRACES
  · rw [performCleanup_eq_of_over h]
    have hnd2 : ((afterTTLPass now s).map Prod.fst).Nodup :=
      nodup_keys_sublist (afterTTLPass_sublist now s) hnd
    have hc := (capacity_core hnd2 h).2.1
    rw [hc.length_eq, List.length_drop, List.length_insertionSort]
    exact le_of_eq (Nat.sub_sub_self (le_of_lt h))
  · rw [performCleanup_eq_of_under h]
    exact Nat.le_of_not_lt h

/-- C4 (counterexample): the claim that a trace whose age is at least (≥) the
5-minute TTL is removed by `performCleanup` fails at the boundary: a trace of
age exactly `TRACE_TTL_MS` survives the pass, because the code removes only
traces with `age > TRACE_TTL_MS` (strict). -/
theorem C4_counterexample :
    TRACE_TTL_MS - traceAtZero.startTime ≥ TRACE_TTL_MS ∧
    lookupTrace "t1" (performCleanup TRACE_TTL_MS boundaryStore) = some traceAtZero := by
  constructor
  · decide
  · decide

/-- C4 (amended): after a `performCleanup` pass, every trace whose age
strictly exceeds the 5-minute TTL is absent from the store, whether or not it
was ever completed. -/
theorem C4_theorem (now : Int) (s : TraceContextState) (k : String)
    (tr : RequestTrace) (hnd : nodupKeys s) (hmem : (k, tr) ∈ s.traces)
    (hage : now - tr.startTime > TRACE_TTL_MS) :
    lookupTrace k (performCleanup now s) = none := by
  unfold lookupTrace
  rw [assocLookup_eq_none]
  intro e he hek
  have he2 : e ∈ afterTTLPass now s := (performCleanup_sub_afterTTL now s).mem he
  rw [afterTTLPass_nodup_eq_filter hnd now] at he2
  have hmem2 := List.mem_of_mem_filter he2
  have hpred := List.of_mem_filter he2
  have hsame : e.2 = tr := by
    apply nodup_assoc_unique hnd (k := k)
    · rw [← hek]
      exact (Prod.mk.eta (p := e)) ▸ hmem2
    · exact hmem
  rw [hsame] at hpred
  simp only [Bool.not_eq_eq_eq_not, Bool.not_true, decide_eq_false_iff_not] at hpred
  exact hpred hage

/-- C4 witness: the amended theorem applied to a store holding a stale and a
fresh trace. -/
theorem C4_witness :
    nodupKeys mixedStore ∧ ("t1", traceAtZero) ∈ mixedStore.traces ∧
      ((1000000 : Int) - traceAtZero.startTime > TRACE_TTL_MS) ∧
      lookupTrace "t1" (performCleanup 1000000 mixedStore) = none :=
  ⟨by decide, by decide, by decide,
    C4_theorem 1000000 mixedStore "t1" traceAtZero (by decide) (by decide) (by decide)⟩

/-- C5: when, after the TTL pass, the live-trace count still exceeds the
capacity, `performCleanup` brings the store back to exactly `MAX_TRACES`
traces, keeps only traces that survived the TTL pass, and evicts
oldest-first: every removed trace has a start timestamp no later than that of
every surviving trace. -/
theorem C5_theorem (now : Int) (s : TraceContextState) (hnd : nodupKeys s)
    (hover : (afterTTLPass now s).length > MAX_TRACES) :
    (performCleanup now s).traces.length = MAX_TRACES ∧
    (∀ e ∈ (performCleanup now s).traces, e ∈ afterTTLPass now s) ∧
    (∀ e ∈ afterTTLPass now s, e ∉ (performCleanup now s).traces →
      ∀ e2 ∈ (performCleanup now s).traces, e.2.startTime ≤ e2.2.startTime) := by
  have hnd2 : ((afterTTLPass now s).map Prod.fst).Nodup :=
    nodup_keys_sublist (afterTTLPass_sublist now s) hnd
  obtain ⟨hfil, hperm, hsorted⟩ := capacity_core hnd2 hover
  rw [performCleanup_eq_of_over hover]
  refine ⟨?_, ?_, ?_⟩
  · rw [hperm.length_eq, List.length_drop, List.length_insertionSort]
    exact Nat.sub_sub_self (le_of_lt hover)
  · intro e he
    rw [hfil] at he
    exact List.mem_of_mem_filter he
  · intro e hel henot e2 he2
    have he2drop : e2 ∈ ((afterTTLPass now s).insertionSort byStart).drop
        ((afterTTLPass now s).length - MAX_TRACES) := hperm.subset he2
    have hetake : e ∈ ((afterTTLPass now s).insertionSort byStart).take
        ((afterTTLPass now s).length - MAX_TRACES) := by
      have hes : e ∈ (afterTTLPass now s).insertionSort byStart :=
        (List.mem_insertionSort byStart).mpr hel
      have hsplit : e ∈ ((afterTTLPass now s).insertionSort byStart).take
            ((afterTTLPass now s).length - MAX_TRACES) ++
          ((afterTTLPass now s).insertionSort byStart).drop
            ((afterTTLPass now s).length - MAX_TRACES) := by
        rw [List.take_append_drop]
        exact hes
      rcases List.mem_append.mp hsplit with h1 | h1
      · exact h1
      · exact absurd (hperm.symm.subset h1) henot
    have hpair : List.Pairwise byStart
        (((afterTTLPass now s).insertionSort byStart).take
            ((afterTTLPass now s).length - MAX_TRACES) ++
          ((afterTTLPass now s).insertionSort byStart).drop
            ((afterTTLPass now s).length - MAX_TRACES)) := by
      rw [List.take_append_drop]
      exact hsorted
    exact (List.pairwise_append.mp hpair).2.2 e hetake e2 he2drop

theorem natKey_injective : Function.Injective natKey := by
  intro a b h
  unfold natKey at h
  have h2 : (List.replicate a 'a').length = (List.replicate b 'a').length := by
    injection h with h3
    rw [h3]
  simpa using h2

theorem overfullStore_eq :
    overfullStore = ⟨(List.range (MAX_TRACES + 1)).map overfullEntry⟩ := rfl

theorem rangeStore_nodup (n : Nat) :
    nodupKeys ⟨(List.range n).map overfullEntry⟩ := by
  unfold nodupKeys
  rw [show (⟨(List.range n).map overfullEntry⟩ : TraceContextState).traces =
      (List.range n).map overfullEntry from rfl]
  rw [List.map_map]
  have hc : (Prod.fst ∘ overfullEntry) = natKey := rfl
  rw [hc]
  exact (List.nodup_range _).map natKey_injective

theorem rangeStore_afterTTL (n : Nat) :
    afterTTLPass 0 ⟨(List.range n).map overfullEntry⟩ =
      (List.range n).map overfullEntry := by
  have hdoomed : ttlDoomed 0 ⟨(List.range n).map overfullEntry⟩ = [] := by
    unfold ttlDoomed
    rw [show (⟨(List.range n).map overfullEntry⟩ : TraceContextState).traces =
        (List.range n).map overfullEntry from rfl]
    have hfil : ((List.range n).map overfullEntry).filter
        (fun e => decide ((0 : Int) - e.2.startTime > TRACE_TTL_MS)) = [] := by
      rw [List.filter_eq_nil_iff]
      intro e he
      obtain ⟨i, _, rfl⟩ := List.mem_map.mp he
      show ¬ decide ((0 : Int) - 0 > TRACE_TTL_MS) = true
      decide
    rw [hfil]
    rfl
  unfold afterTTLPass
  rw [hdoomed]
  rw [show (⟨(List.range n).map overfullEntry⟩ : TraceContextState).traces =
      (List.range n).map overfullEntry from rfl]
  rfl

theorem overfullStore_nodup : nodupKeys overfullStore := by
  rw [overfullStore_eq]
  exact rangeStore_nodup (MAX_TRACES + 1)

theorem overfullStore_over : (afterTTLPass 0 overfullStore).length > MAX_TRACES := by
  rw [overfullStore_eq, rangeStore_afterTTL (MAX_TRACES + 1),
    List.length_map, List.length_range]
  exact Nat.lt_succ_self _

/-- C5 witness: the theorem applied to a store of `MAX_TRACES + 1` fresh
traces with pairwise-distinct keys. -/
theorem C5_witness :
    nodupKeys overfullStore ∧ (afterTTLPass 0 overfullStore).length > MAX_TRACES ∧
    ((performCleanup 0 overfullStore).traces.length = MAX_TRACES ∧
      (∀ e ∈ (performCleanup 0 overfullStore).traces, e ∈ afterTTLPass 0 overfullStore) ∧
      (∀ e ∈ afterTTLPass 0 overfullStore, e ∉ (performCleanup 0 overfullStore).traces →
        ∀ e2 ∈ (performCleanup 0 overfullStore).traces,
          e.2.startTime ≤ e2.2.startTime)) :=
  ⟨overfullStore_nodup, overfullStore_over,
    C5_theorem 0 overfullStore overfullStore_nodup overfullStore_over⟩

/-- C3 (counterexample): `addRequestSpan` CAN raise: when the context resolves
a trace id that is absent from the store, the delegated `addSpan` throws
`Trace not found`, refuting the claim that the span helpers never raise. -/
theorem C3_counterexample :
    addRequestSpan 0 "sp1" ctxWithId "auth" none none ⟨[]⟩ =
      Except.error "Trace not found: t1" := by
  rfl

/-- C3 (amended): the span helpers are no-ops when no trace identifier
resolves from the context, and `completeRequestSpan` never raises;
`addRequestSpan` raises exactly when a truthy trace identifier resolves but
the store holds no trace under it. -/
theorem C3_theorem (now now2 : Int) (freshId : String) (c : Ctx) (name : String)
    (md tags emd : Option JsRecord) (spanId : String) (err : Option String)
    (s : TraceContextState) :
    ((addRequestSpan now freshId c name md tags s).isOk = false ↔
      (jsTruthy (getTraceId c) = true ∧
        lookupTrace ((getTraceId c).getD "") s = none)) ∧
    (jsTruthy (getTraceId c) = false →
      addRequestSpan now freshId c name md tags s = Except.ok (none, s) ∧
      completeRequestSpan now2 c spanId emd err s = s) := by
  constructor
  · unfold addRequestSpan
    by_cases ht : jsTruthy (getTraceId c) = true
    · rw [ht]
      simp only [Bool.not_true, Bool.false_eq_true, if_false]
      unfold startSpan addSpan
      cases hl : lookupTrace ((getTraceId c).getD "") s with
      | none => simp [Except.isOk, Except.toBool, ht, hl]
      | some tr => simp [Except.isOk, Except.toBool, ht, hl]
    · have hf : jsTruthy (getTraceId c) = false := by
        cases h2 : jsTruthy (getTraceId c)
        · rfl
        · exact absurd h2 ht
      rw [hf]
      simp [Except.isOk, Except.toBool, hf]
  · intro hf
    constructor
    · simp only [addRequestSpan]
      rw [hf]
      rfl
    · simp only [completeRequestSpan]
      rw [hf]
      rfl

/-- C3 witness: the amended theorem applied to a context resolving the absent
trace id `t1` and to a context resolving nothing. -/
theorem C3_witness :
    ((addRequestSpan 0 "sp1" ctxWithId "auth" none none ⟨[]⟩).isOk = false ↔
      (jsTruthy (getTraceId ctxWithId) = true ∧
        lookupTrace ((getTraceId ctxWithId).getD "") ⟨[]⟩ = none)) ∧
    (addRequestSpan 0 "sp1" ctxNoId "auth" none none ⟨[]⟩ = Except.ok (none, ⟨[]⟩) ∧
      completeRequestSpan 0 ctxNoId "sp1" none none ⟨[]⟩ = (⟨[]⟩ : TraceContextState)) :=
  ⟨(C3_theorem 0 0 "sp1" ctxWithId "auth" none none none "sp1" none ⟨[]⟩).1,
    (C3_theorem 0 0 "sp1" ctxNoId "auth" none none none "sp1" none ⟨[]⟩).2 (by decide)⟩

/-- C8 (counterexample): for a call with no user-agent string the
classification does NOT produce `unknown` fields: `parseUserAgent` returns
the empty object, whose browser field is absent rather than `unknown`. -/
theorem C8_counterexample :
    (parseUserAgent none).browser = none ∧
      (parseUserAgent none).browser ≠ some "unknown" := by
  decide

/-- C8 (amended): for every call whose metadata carries no user-agent string
(absent or empty), the user-agent classification step returns the empty
object: browser, version, operating-system, and device-type fields are all
omitted (absent), and the step does not fail. -/
theorem C8_theorem (ua : Option String) (h : jsTruthy ua = false) :
    parseUserAgent ua = ({} : UAInfo) := by
  unfold parseUserAgent
  rw [h]
  rfl

/-- C8 witness: the amended theorem applied to the absent user agent. -/
theorem C8_witness :
    jsTruthy none = false ∧ parseUserAgent none = ({} : UAInfo) :=
  ⟨by decide, C8_theorem none (by decide)⟩

theorem lookupSession_set_self (k : String) (v : LoggingState) (m : SessionMap) :
    lookupSession k (setSession k v m) = some v :=
  assocLookup_set_self k v m

theorem lookupSession_set_ne {k k2 : String} (h : k2 ≠ k) (v : LoggingState)
    (m : SessionMap) : lookupSession k2 (setSession k v m) = lookupSession k2 m :=
  assocLookup_set_ne h v m

/-- C1: `logCall` never propagates a failure of the export step — for every
outcome of the external sink it returns normally — and it unconditionally
updates the session aggregate: totalCalls is incremented, totalDuration grows
by the call's duration, and totalErrors is incremented exactly when the call
carries a (truthy) error, whether or not the export succeeded. -/
theorem C1_theorem (submit : DatadogLogEntry → Except String Unit) (now : Int)
    (freshId ddTraceId ddSpanId : String) (cd : TRPCCallInput) (m : SessionMap) :
    logCall submit now freshId ddTraceId ddSpanId cd m =
      Except.ok
        (logSingleCall submit ddTraceId ddSpanId cd.sessionId cd.userId (mkLog now freshId cd),
         updateSessionStats now cd.sessionId cd.userId (mkLog now freshId cd) m) ∧
    (sessionCounters cd.sessionId
        (updateSessionStats now cd.sessionId cd.userId (mkLog now freshId cd) m)).1 =
      (sessionCounters cd.sessionId m).1 + 1 ∧
    (sessionCounters cd.sessionId
        (updateSessionStats now cd.sessionId cd.userId (mkLog now freshId cd) m)).2.1 =
      (sessionCounters cd.sessionId m).2.1 + (if jsTruthy cd.error then 1 else 0) ∧
    (sessionCounters cd.sessionId
        (updateSessionStats now cd.sessionId cd.userId (mkLog now freshId cd) m)).2.2 =
      (sessionCounters cd.sessionId m).2.2 + cd.duration := by
  refine ⟨rfl, ?_⟩
  unfold updateSessionStats sessionCounters
  cases hl : lookupSession cd.sessionId m with
  | some st =>
    simp only [hl]
    rw [lookupSession_set_self]
    exact ⟨rfl, rfl, rfl⟩
  | none =>
    simp only [hl]
    rw [lookupSession_set_self]
    exact ⟨rfl, rfl, rfl⟩

/-- C2 (counterexample): for a call to the self-referential procedure
`logging.getSessionStats`, `logCall` submits nothing to the sink but the
session-statistics state is NOT left unchanged: the aggregate for `s1` goes
from absent (counters (0,0,0)) to totalCalls = 1, totalDuration = 7. -/
theorem C2_counterexample :
    (logCall (fun _ => Except.ok ()) 5 "id1" "ddt" "dds" loggingCall []).map
        (fun r => (r.1, sessionCounters "s1" r.2)) =
      Except.ok ((none : Option DatadogLogEntry), ((1 : Int), (0 : Int), (7 : Int))) ∧
    sessionCounters "s1" [] = ((0 : Int), (0 : Int), (0 : Int)) := by
  constructor
  · rfl
  · rfl

/-- C2 (amended): for every call whose procedure is one of the fixed
self-referential logging procedures, nothing is submitted to the external
sink — the result is independent of the sink — but the session-statistics
update still takes place exactly as for any other call. -/
theorem C2_theorem (submit submit2 : DatadogLogEntry → Except String Unit)
    (now : Int) (freshId ddTraceId ddSpanId : String) (cd : TRPCCallInput)
    (m : SessionMap) (h : isLoggingProcedure cd.procedure = true) :
    logCall submit now freshId ddTraceId ddSpanId cd m =
      Except.ok (none, updateSessionStats now cd.sessionId cd.userId (mkLog now freshId cd) m) ∧
    logCall submit now freshId ddTraceId ddSpanId cd m =
      logCall submit2 now freshId ddTraceId ddSpanId cd m := by
  have hguard : logSingleCall submit ddTraceId ddSpanId cd.sessionId cd.userId
      (mkLog now freshId cd) = none := by
    unfold logSingleCall
    rw [show (mkLog now freshId cd).procedure = cd.procedure from rfl, h]
    rfl
  have hguard2 : logSingleCall submit2 ddTraceId ddSpanId cd.sessionId cd.userId
      (mkLog now freshId cd) = none := by
    unfold logSingleCall
    rw [show (mkLog now freshId cd).procedure = cd.procedure from rfl, h]
    rfl
  constructor
  · simp only [logCall]
    rw [hguard]
  · simp only [logCall]
    rw [hguard, hguard2]

/-- C2 witness: the amended theorem applied to a `logging.getSessionStats`
call, with a failing sink as the second sink. -/
theorem C2_witness :
    isLoggingProcedure loggingCall.procedure = true ∧
    logCall (fun _ => Except.ok ()) 5 "id1" "ddt" "dds" loggingCall [] =
      Except.ok (none,
        updateSessionStats 5 loggingCall.sessionId loggingCall.userId
          (mkLog 5 "id1" loggingCall) []) ∧
    logCall (fun _ => Except.ok ()) 5 "id1" "ddt" "dds" loggingCall [] =
      logCall (fun _ => Except.error "sink down") 5 "id1" "ddt" "dds" loggingCall [] := by
  refine ⟨by decide, ?_⟩
  exact C2_theorem (fun _ => Except.ok ()) (fun _ => Except.error "sink down")
    5 "id1" "ddt" "dds" loggingCall [] (by decide)

theorem recordCalls_cons (sid uid : String) (c : Int × TRPCCallLog)
    (rest : List (Int × TRPCCallLog)) (m : SessionMap) :
    recordCalls sid uid (c :: rest) m =
      recordCalls sid uid rest (updateSessionStats c.1 sid uid c.2 m) := rfl

theorem updateSessionStats_existing {sid : String} {m : SessionMap}
    {st : LoggingState} (hl : lookupSession sid m = some st) (now : Int)
    (uid : String) (log : TRPCCallLog) :
    lookupSession sid (updateSessionStats now sid uid log m) = some
      ({ st with lastActivity := log.timestamp, totalCalls := st.totalCalls + 1, totalErrors := st.totalErrors + (if jsTruthy log.error then 1 else 0), totalDuration := st.totalDuration + log.duration } : LoggingState) := by
  unfold updateSessionStats
  simp only [hl]
  rw [lookupSession_set_self]

theorem updateSessionStats_absent {sid : String} {m : SessionMap}
    (hl : lookupSession sid m = none) (now : Int) (uid : String)
    (log : TRPCCallLog) :
    lookupSession sid (updateSessionStats now sid uid log m) = some
      ({ sessionId := sid, userId := uid, startedAt := now, lastActivity := log.timestamp, totalCalls := 0 + 1, totalErrors := 0 + (if jsTruthy log.error then 1 else 0), totalDuration := 0 + log.duration } : LoggingState) := by
  unfold updateSessionStats
  simp only [hl]
  rw [lookupSession_set_self]

theorem recordCalls_counters (sid uid : String) (calls : List (Int × TRPCCallLog))
    (m : SessionMap) (st : LoggingState) (hl : lookupSession sid m = some st) :
    ∃ st2, lookupSession sid (recordCalls sid uid calls m) = some st2 ∧
      st2.totalCalls = st.totalCalls + calls.length ∧
      st2.totalErrors = st.totalErrors + countErrors calls ∧
      st2.totalDuration = st.totalDuration + sumDurations calls ∧
      st2.userId = st.userId ∧ st2.startedAt = st.startedAt := by
  induction calls generalizing m st with
  | nil =>
    refine ⟨st, ?_, by simp, by simp [countErrors], by simp [sumDurations], rfl, rfl⟩
    simpa [recordCalls] using hl
  | cons c rest ih =>
    rw [recordCalls_cons]
    obtain ⟨st2, h1, h2, h3, h4, h5, h6⟩ :=
      ih (updateSessionStats c.1 sid uid c.2 m) _ (updateSessionStats_existing hl c.1 uid c.2)
    refine ⟨st2, h1, ?_, ?_, ?_, h5, h6⟩
    · rw [h2]
      show st.totalCalls + 1 + (rest.length : Int) = st.totalCalls + ((c :: rest).length : Int)
      rw [List.length_cons]
      push_cast
      ring
    · rw [h3]
      show st.totalErrors + (if jsTruthy c.2.error then 1 else 0) + (countErrors rest : Int) =
        st.totalErrors + (countErrors (c :: rest) : Int)
      unfold countErrors
      rw [List.filter_cons]
      by_cases hb : jsTruthy c.2.error = true
      · rw [hb, if_pos rfl, if_pos (by rfl)]
        rw [List.length_cons]
        push_cast
        ring

      · have hb2 : jsTruthy c.2.error = false := by
          cases h2 : jsTruthy c.2.error
          · rfl
          · exact absurd h2 hb
        rw [hb2]
        simp only [Bool.false_eq_true, if_false]
        ring
    · rw [h4]
      show st.totalDuration + c.2.duration + sumDurations rest =
        st.totalDuration + sumDurations (c :: rest)
      unfold sumDurations
      rw [List.map_cons, List.sum_cons]
      ring

theorem getSessionStats_of_some {sid : String} {m : SessionMap} {st : LoggingState}
    (hl : lookupSession sid m = some st) (now : Int) :
    (getSessionStats now sid m).1 = ({ totalCalls := st.totalCalls, totalErrors := st.totalErrors, totalDuration := st.totalDuration, averageDuration := if st.totalCalls > 0 then (st.totalDuration : ℚ) / (st.totalCalls : ℚ) else 0, errorRate := if st.totalCalls > 0 then (st.totalErrors : ℚ) / (st.totalCalls : ℚ) * 100 else 0, sessionDuration := now - st.startedAt } : SessionStats) := by
  unfold getSessionStats getState
  simp only [hl]

theorem getSessionStats_of_none {sid : String} {m : SessionMap}
    (hl : lookupSession sid m = none) (now : Int) :
    (getSessionStats now sid m).1 = ({ totalCalls := 0, totalErrors := 0, totalDuration := 0, averageDuration := 0, errorRate := 0, sessionDuration := now - now } : SessionStats) := by
  unfold getSessionStats getState
  simp only [hl]
  rfl

theorem statsOf (sid : String) (m2 : SessionMap) (now : Int) (st2 : LoggingState)
    (N E : Nat) (D : Int) (hl2 : lookupSession sid m2 = some st2)
    (hc : st2.totalCalls = (N : Int)) (he : st2.totalErrors = (E : Int))
    (hd : st2.totalDuration = D) :
    (getSessionStats now sid m2).1.totalCalls = (N : Int) ∧
    (getSessionStats now sid m2).1.totalErrors = (E : Int) ∧
    (getSessionStats now sid m2).1.totalDuration = D ∧
    (N > 0 → (getSessionStats now sid m2).1.averageDuration = (D : ℚ) / (N : ℚ) ∧
      (getSessionStats now sid m2).1.errorRate = 100 * (E : ℚ) / (N : ℚ)) ∧
    (N = 0 → (getSessionStats now sid m2).1.averageDuration = 0 ∧
      (getSessionStats now sid m2).1.errorRate = 0) := by
  rw [getSessionStats_of_some hl2 now]
  refine ⟨hc, he, hd, ?_, ?_⟩
  · intro hN
    have hpos : st2.totalCalls > 0 := by
      rw [hc]
      exact_mod_cast hN
    constructor
    · show (if st2.totalCalls > 0 then (st2.totalDuration : ℚ) / (st2.totalCalls : ℚ) else 0) = (D : ℚ) / (N : ℚ)
      rw [if_pos hpos, hc, hd]
      norm_cast
    · show (if st2.totalCalls > 0 then (st2.totalErrors : ℚ) / (st2.totalCalls : ℚ) * 100 else 0) = 100 * (E : ℚ) / (N : ℚ)
      rw [if_pos hpos, hc, he]
      push_cast
      ring
  · intro hN0
    have hneg : ¬ st2.totalCalls > 0 := by
      rw [hc, hN0]
      simp
    constructor
    · show (if st2.totalCalls > 0 then (st2.totalDuration : ℚ) / (st2.totalCalls : ℚ) else 0) = 0
      rw [if_neg hneg]
    · show (if st2.totalCalls > 0 then (st2.totalErrors : ℚ) / (st2.totalCalls : ℚ) * 100 else 0) = 0
      rw [if_neg hneg]

/-- C6: starting from an absent or zeroed aggregate, after recording N calls
of which E carry a (truthy) error and whose durations sum to D,
`getSessionStats` reports totalCalls = N, totalErrors = E, totalDuration = D,
averageDuration = D/N and errorRate = 100·E/N when N > 0, and
averageDuration = errorRate = 0 when N = 0 (no division fault). -/
theorem C6_theorem (sid uid : String) (now : Int)
    (calls : List (Int × TRPCCallLog)) (m : SessionMap)
    (h : lookupSession sid m = none ∨ ∃ st, lookupSession sid m = some st ∧
      st.totalCalls = 0 ∧ st.totalErrors = 0 ∧ st.totalDuration = 0) :
    (getSessionStats now sid (recordCalls sid uid calls m)).1.totalCalls = (calls.length : Int) ∧
    (getSessionStats now sid (recordCalls sid uid calls m)).1.totalErrors = (countErrors calls : Int) ∧
    (getSessionStats now sid (recordCalls sid uid calls m)).1.totalDuration = sumDurations calls ∧
    (calls.length > 0 →
      (getSessionStats now sid (recordCalls sid uid calls m)).1.averageDuration =
        (sumDurations calls : ℚ) / (calls.length : ℚ) ∧
      (getSessionStats now sid (recordCalls sid uid calls m)).1.errorRate =
        100 * (countErrors calls : ℚ) / (calls.length : ℚ)) ∧
    (calls.length = 0 →
      (getSessionStats now sid (recordCalls sid uid calls m)).1.averageDuration = 0 ∧
      (getSessionStats now sid (recordCalls sid uid calls m)).1.errorRate = 0) := by
  rcases h with habs | ⟨st, hst, hz1, hz2, hz3⟩
  · cases calls with
    | nil =>
      have hrec : recordCalls sid uid [] m = m := rfl
      rw [hrec, getSessionStats_of_none habs now]
      refine ⟨by simp, by simp [countErrors], by simp [sumDurations], ?_, ?_⟩
      · intro hN
        exact absurd hN (by simp)
      · intro _
        exact ⟨rfl, rfl⟩
    | cons c rest =>
      have h1 := updateSessionStats_absent habs c.1 uid c.2
      obtain ⟨st2, hl2, h2, h3, h4, _, _⟩ :=
        recordCalls_counters sid uid rest (updateSessionStats c.1 sid uid c.2 m) _ h1
      rw [recordCalls_cons]
      apply statsOf sid _ now st2 (c :: rest).length (countErrors (c :: rest)) (sumDurations (c :: rest)) hl2
      · rw [h2]
        show (0 : Int) + 1 + (rest.length : Int) = ((c :: rest).length : Nat)
        rw [List.length_cons]
        push_cast
        ring
      · rw [h3]
        show (0 : Int) + (if jsTruthy c.2.error then 1 else 0) + (countErrors rest : Int) =
          (countErrors (c :: rest) : Nat)
        unfold countErrors
        rw [List.filter_cons]
        by_cases hb : jsTruthy c.2.error = true
        · rw [hb, if_pos rfl, if_pos (by rfl), List.length_cons]
          push_cast
          ring
        · have hb2 : jsTruthy c.2.error = false := by
            cases hx : jsTruthy c.2.error
            · rfl
            · exact absurd hx hb
          rw [hb2]
          simp only [Bool.false_eq_true, if_false]
          push_cast
          ring
      · rw [h4]
        show (0 : Int) + c.2.duration + sumDurations rest = sumDurations (c :: rest)
        unfold sumDurations
        rw [List.map_cons, List.sum_cons]
        ring
  · obtain ⟨st2, hl2, h2, h3, h4, _, _⟩ := recordCalls_counters sid uid calls m st hst
    apply statsOf sid _ now st2 calls.length (countErrors calls) (sumDurations calls) hl2
    · rw [h2, hz1]
      ring
    · rw [h3, hz2]
      ring
    · rw [h4, hz3]
      ring

/-- C6 witness: two calls for session `s1` (durations 10 and 32, the second
erroring) recorded from the empty session map. -/
theorem C6_witness :
    lookupSession "s1" ([] : SessionMap) = none ∧
    ((getSessionStats 10 "s1" (recordCalls "s1" "u1" [(3, plainCall), (4, errorCall)] [])).1.totalCalls =
        (([(3, plainCall), (4, errorCall)] : List (Int × TRPCCallLog)).length : Int) ∧
      (getSessionStats 10 "s1" (recordCalls "s1" "u1" [(3, plainCall), (4, errorCall)] [])).1.totalErrors =
        (countErrors [(3, plainCall), (4, errorCall)] : Int) ∧
      (getSessionStats 10 "s1" (recordCalls "s1" "u1" [(3, plainCall), (4, errorCall)] [])).1.totalDuration =
        sumDurations [(3, plainCall), (4, errorCall)] ∧
      (([(3, plainCall), (4, errorCall)] : List (Int × TRPCCallLog)).length > 0 →
        (getSessionStats 10 "s1" (recordCalls "s1" "u1" [(3, plainCall), (4, errorCall)] [])).1.averageDuration =
          (sumDurations [(3, plainCall), (4, errorCall)] : ℚ) /
            (([(3, plainCall), (4, errorCall)] : List (Int × TRPCCallLog)).length : ℚ) ∧
        (getSessionStats 10 "s1" (recordCalls "s1" "u1" [(3, plainCall), (4, errorCall)] [])).1.errorRate =
          100 * (countErrors [(3, plainCall), (4, errorCall)] : ℚ) /
            (([(3, plainCall), (4, errorCall)] : List (Int × TRPCCallLog)).length : ℚ)) ∧
      (([(3, plainCall), (4, errorCall)] : List (Int × TRPCCallLog)).length = 0 →
        (getSessionStats 10 "s1" (recordCalls "s1" "u1" [(3, plainCall), (4, errorCall)] [])).1.averageDuration = 0 ∧
        (getSessionStats 10 "s1" (recordCalls "s1" "u1" [(3, plainCall), (4, errorCall)] [])).1.errorRate = 0)) :=
  ⟨rfl, C6_theorem "s1" "u1" 10 [(3, plainCall), (4, errorCall)] [] (Or.inl rfl)⟩

/-- C10: the read operations `getState` and `getSessionStats` are not
read-only on an unknown session: they insert a fresh zeroed aggregate with
empty userId and startedAt = lastActivity = now into the session map, and a
subsequent `updateSessionStats` (recordCall) for that session reuses the
pre-created aggregate without setting its userId. -/
theorem C10_theorem (now now2 : Int) (sid uid : String) (m : SessionMap)
    (log : TRPCCallLog) (h : lookupSession sid m = none) :
    (getState now sid m).1 = ({ sessionId := sid, userId := "", startedAt := now, lastActivity := now, totalCalls := 0, totalErrors := 0, totalDuration := 0 } : LoggingState) ∧
    lookupSession sid (getState now sid m).2 = some ({ sessionId := sid, userId := "", startedAt := now, lastActivity := now, totalCalls := 0, totalErrors := 0, totalDuration := 0 } : LoggingState) ∧
    lookupSession sid (getSessionStats now sid m).2 = some ({ sessionId := sid, userId := "", startedAt := now, lastActivity := now, totalCalls := 0, totalErrors := 0, totalDuration := 0 } : LoggingState) ∧
    (∃ st2, lookupSession sid (updateSessionStats now2 sid uid log (getState now sid m).2) = some st2 ∧
      st2.userId = "" ∧ st2.startedAt = now ∧ st2.totalCalls = 1 ∧
      st2.totalDuration = log.duration) := by
  have hstate : getState now sid m =
      (({ sessionId := sid, userId := "", startedAt := now, lastActivity := now, totalCalls := 0, totalErrors := 0, totalDuration := 0 } : LoggingState),
        setSession sid ({ sessionId := sid, userId := "", startedAt := now, lastActivity := now, totalCalls := 0, totalErrors := 0, totalDuration := 0 } : LoggingState) m) := by
    unfold getState
    simp only [h]
  refine ⟨by rw [hstate], ?_, ?_, ?_⟩
  · rw [hstate]
    exact lookupSession_set_self _ _ _
  · unfold getSessionStats
    rw [hstate]
    exact lookupSession_set_self _ _ _
  · rw [hstate]
    refine ⟨_, updateSessionStats_existing (lookupSession_set_self _ _ _) now2 uid log, rfl, rfl, ?_, ?_⟩
    · show (0 : Int) + 1 = 1
      norm_num
    · show (0 : Int) + log.duration = log.duration
      ring

/-- C10 witness: the theorem applied to the empty session map. -/
theorem C10_witness :
    lookupSession "s1" ([] : SessionMap) = none ∧
    ((getState 7 "s1" []).1 = ({ sessionId := "s1", userId := "", startedAt := 7, lastActivity := 7, totalCalls := 0, totalErrors := 0, totalDuration := 0 } : LoggingState) ∧
    lookupSession "s1" (getState 7 "s1" []).2 = some ({ sessionId := "s1", userId := "", startedAt := 7, lastActivity := 7, totalCalls := 0, totalErrors := 0, totalDuration := 0 } : LoggingState) ∧
    lookupSession "s1" (getSessionStats 7 "s1" []).2 = some ({ sessionId := "s1", userId := "", startedAt := 7, lastActivity := 7, totalCalls := 0, totalErrors := 0, totalDuration := 0 } : LoggingState) ∧
    (∃ st2, lookupSession "s1" (updateSessionStats 8 "s1" "u1" plainCall (getState 7 "s1" []).2) = some st2 ∧
      st2.userId = "" ∧ st2.startedAt = 7 ∧ st2.totalCalls = 1 ∧
      st2.totalDuration = plainCall.duration)) :=
  ⟨rfl, C10_theorem 7 8 "s1" "u1" [] plainCall rfl⟩

theorem getElem_append_of_some {α : Type} {l l2 : List α} {i : Nat} {a : α}
    (h : l[i]? = some a) : (l ++ l2)[i]? = some a := by
  have hlt : i < l.length := by
    by_contra hc
    rw [List.getElem?_eq_none (Nat.le_of_not_lt hc)] at h
    cases h
  rw [List.getElem?_append, if_pos hlt]
  exact h

theorem span_preserved_of_eq {tr tr2 : RequestTrace} {i : Nat} {sp sp2 : TraceSpan}
    (h : tr2 = tr) (hi : tr.spans[i]? = some sp) (hi2 : tr2.spans[i]? = some sp2) :
    sp2 = sp := by
  subst h
  rw [hi] at hi2
  injection hi2 with h3
  exact h3.symm

theorem statusGoal_of_eq {tr tr2 : RequestTrace} {i : Nat} {sp sp2 : TraceSpan}
    (h : tr2 = tr) (hi : tr.spans[i]? = some sp) (hi2 : tr2.spans[i]? = some sp2) :
    sp2.status = sp.status ∨ sp2.status = SpanStatus.completed ∨
      sp2.status = SpanStatus.error :=
  Or.inl (by rw [span_preserved_of_eq h hi hi2])

theorem statusGoal_unchanged {s : TraceContextState} {tid : String}
    {tr tr2 : RequestTrace} {i : Nat} {sp sp2 : TraceSpan}
    (h1 : lookupTrace tid s = some tr) (h2 : lookupTrace tid s = some tr2)
    (hi : tr.spans[i]? = some sp) (hi2 : tr2.spans[i]? = some sp2) :
    sp2.status = sp.status ∨ sp2.status = SpanStatus.completed ∨
      sp2.status = SpanStatus.error := by
  have htr : tr2 = tr := by
    rw [h1] at h2
    injection h2 with h3
    exact h3.symm
  exact statusGoal_of_eq htr hi hi2

theorem lookupTrace_update {s : TraceContextState} {tid tid2 : String}
    {f : RequestTrace → RequestTrace} {tr tr2 : RequestTrace}
    (h1 : lookupTrace tid s = some tr)
    (h2 : lookupTrace tid ⟨mapUpdate tid2 f s.traces⟩ = some tr2) :
    (tid = tid2 ∧ tr2 = f tr) ∨ tr2 = tr := by
  by_cases he : tid = tid2
  · subst he
    have hs : lookupTrace tid ⟨mapUpdate tid f s.traces⟩ = (lookupTrace tid s).map f :=
      assocLookup_update_self tid f s.traces
    rw [hs, h1] at h2
    left
    refine ⟨rfl, ?_⟩
    injection h2 with h3
    exact h3.symm
  · have hs : lookupTrace tid ⟨mapUpdate tid2 f s.traces⟩ = lookupTrace tid s :=
      assocLookup_update_ne he f s.traces
    rw [hs, h1] at h2
    right
    injection h2 with h3
    exact h3.symm

theorem lookupTrace_of_sublist {s : TraceContextState}
    {res : List (String × RequestTrace)} (hsub : List.Sublist res s.traces)
    (hnd : nodupKeys s) {tid : String} {tr2 : RequestTrace}
    (h2 : lookupTrace tid ⟨res⟩ = some tr2) : lookupTrace tid s = some tr2 :=
  assocLookup_of_sublist hsub hnd h2

theorem finishSpan_status (now : Int) (md : Option JsRecord) (err : Option String)
    (sp : TraceSpan) :
    (finishSpan now md err sp).status = SpanStatus.completed ∨
      (finishSpan now md err sp).status = SpanStatus.error := by
  unfold finishSpan
  by_cases hb : jsTruthy err = true
  · right
    simp [hb]
  · left
    have hb2 : jsTruthy err = false := by
      cases hx : jsTruthy err
      · rfl
      · exact absurd hx hb
    simp [hb2]

theorem createTrace_existing {now : Int} {tid2 : String} {md : TraceMetadata}
    {s : TraceContextState} {ex : RequestTrace}
    (hlo : lookupTrace tid2 s = some ex) : (createTrace now tid2 md s).2 = s := by
  unfold createTrace
  rw [hlo]

theorem createTrace_new {now : Int} {tid2 : String} {md : TraceMetadata}
    {s : TraceContextState} (hlo : lookupTrace tid2 s = none) :
    (createTrace now tid2 md s).2 =
      ⟨mapSet tid2 ({ traceId := tid2, startTime := now, spans := [], metadata := md } : RequestTrace)
        (if s.traces.length ≥ MAX_TRACES * 9 / 10 then performCleanup now s else s).traces⟩ := by
  unfold createTrace
  rw [hlo]

theorem completeSpan_eq_none {now : Int} {tid2 spid : String} {md : Option JsRecord}
    {err : Option String} {s : TraceContextState}
    (hlo : lookupTrace tid2 s = none) : completeSpan now tid2 spid md err s = s := by
  unfold completeSpan
  rw [hlo]

theorem completeSpan_eq_some {now : Int} {tid2 spid : String} {md : Option JsRecord}
    {err : Option String} {s : TraceContextState} {tr0 : RequestTrace}
    (hlo : lookupTrace tid2 s = some tr0) :
    completeSpan now tid2 spid md err s =
      ⟨mapUpdate tid2 (fun tr => { tr with spans := updateFirst (fun sp => sp.id == spid) (finishSpan now md err) tr.spans }) s.traces⟩ := by
  unfold completeSpan
  rw [hlo]

theorem completeTrace_snd_none {now : Int} {tid2 : String} {s : TraceContextState}
    (hlo : lookupTrace tid2 s = none) : (completeTrace now tid2 s).2 = s := by
  unfold completeTrace
  rw [hlo]

theorem completeTrace_snd_some {now : Int} {tid2 : String} {s : TraceContextState}
    {tr0 : RequestTrace} (hlo : lookupTrace tid2 s = some tr0) :
    (completeTrace now tid2 s).2 =
      ⟨mapUpdate tid2 (fun _ => { tr0 with endTime := some now, duration := some (now - tr0.startTime) }) s.traces⟩ := by
  unfold completeTrace
  rw [hlo]

theorem addSpan_eq_none {now : Int} {fid tid2 : String} {spec : SpanSpec}
    {s : TraceContextState} (hlo : lookupTrace tid2 s = none) :
    addSpan now fid tid2 spec s = Except.error ("Trace not found: " ++ tid2) := by
  unfold addSpan
  rw [hlo]

theorem addSpan_eq_some {now : Int} {fid tid2 : String} {spec : SpanSpec}
    {s : TraceContextState} {tr0 : RequestTrace}
    (hlo : lookupTrace tid2 s = some tr0) :
    addSpan now fid tid2 spec s = Except.ok
      (({ id := fid, startTime := now, status := SpanStatus.started, name := spec.name, endTime := spec.endTime, duration := spec.duration, metadata := spec.metadata, error := spec.error, tags := spec.tags } : TraceSpan),
        ⟨mapUpdate tid2 (fun tr => { tr with spans := tr.spans ++ [({ id := fid, startTime := now, status := SpanStatus.started, name := spec.name, endTime := spec.endTime, duration := spec.duration, metadata := spec.metadata, error := spec.error, tags := spec.tags } : TraceSpan)] }) s.traces⟩) := by
  unfold addSpan
  rw [hlo]

/-- C7 (counterexample): a span status transition IS reversed by a repeated
`completeSpan`: after completing span `sp` with an error its status is
`error` (terminal), but a second, error-free `completeSpan` on the same span
changes it to `completed` — a later operation changed a terminal status. -/
theorem C7_counterexample :
    spanStatus "t" "sp" (applyOps opsToError ⟨[]⟩) = some SpanStatus.error ∧
    spanStatus "t" "sp" (applyOps opsReverted ⟨[]⟩) = some SpanStatus.completed := by
  constructor
  · rfl
  · rfl

/-- C7 (amended): for every store operation and every span position existing
before and after it, the status after the operation is either unchanged or a
terminal status (`completed` or `error`): a span never returns to `started`,
and from `started` it moves only to `completed` or `error`; however a second
`completeSpan` may exchange one terminal status for the other. -/
theorem C7_theorem (op : Op) (s : TraceContextState) (tid : String)
    (tr tr2 : RequestTrace) (i : Nat) (sp sp2 : TraceSpan)
    (hnd : nodupKeys s) (h1 : lookupTrace tid s = some tr)
    (h2 : lookupTrace tid (applyOp op s) = some tr2)
    (hi : tr.spans[i]? = some sp) (hi2 : tr2.spans[i]? = some sp2) :
    sp2.status = sp.status ∨ sp2.status = SpanStatus.completed ∨
      sp2.status = SpanStatus.error := by
  cases op with
  | createTrace now2 tid2 md =>
    simp only [applyOp] at h2
    cases hlo : lookupTrace tid2 s with
    | some ex =>
      rw [createTrace_existing hlo] at h2
      exact statusGoal_unchanged h1 h2 hi hi2
    | none =>
      rw [createTrace_new hlo] at h2
      by_cases he : tid = tid2
      · rw [he, hlo] at h1
        cases h1
      · have hset : lookupTrace tid
            ⟨mapSet tid2 ({ traceId := tid2, startTime := now2, spans := [], metadata := md } : RequestTrace)
              (if s.traces.length ≥ MAX_TRACES * 9 / 10 then performCleanup now2 s else s).traces⟩ =
            lookupTrace tid (if s.traces.length ≥ MAX_TRACES * 9 / 10 then performCleanup now2 s else s) :=
          assocLookup_set_ne he _ _
        rw [hset] at h2
        by_cases hcond : s.traces.length ≥ MAX_TRACES * 9 / 10
        · rw [if_pos hcond] at h2
          have h2s : lookupTrace tid s = some tr2 := by
            have hsub := performCleanup_sublist now2 s
            exact assocLookup_of_sublist hsub hnd h2
          exact statusGoal_unchanged h1 h2s hi hi2
        · rw [if_neg hcond] at h2
          exact statusGoal_unchanged h1 h2 hi hi2
  | addSpan now2 fid tid2 spec =>
    simp only [applyOp] at h2
    cases hlo : lookupTrace tid2 s with
    | none =>
      rw [addSpan_eq_none hlo] at h2
      exact statusGoal_unchanged h1 h2 hi hi2
    | some tr0 =>
      rw [addSpan_eq_some hlo] at h2
      simp only [] at h2
      rcases lookupTrace_update h1 h2 with ⟨_, hf⟩ | hsame
      · rw [hf] at hi2
        have happ := @getElem_append_of_some TraceSpan tr.spans
          [({ id := fid, startTime := now2, status := SpanStatus.started, name := spec.name, endTime := spec.endTime, duration := spec.duration, metadata := spec.metadata, error := spec.error, tags := spec.tags } : TraceSpan)] i sp hi
        rw [show (({ tr with spans := tr.spans ++ [({ id := fid, startTime := now2, status := SpanStatus.started, name := spec.name, endTime := spec.endTime, duration := spec.duration, metadata := spec.metadata, error := spec.error, tags := spec.tags } : TraceSpan)] } : RequestTrace)).spans = tr.spans ++ [({ id := fid, startTime := now2, status := SpanStatus.started, name := spec.name, endTime := spec.endTime, duration := spec.duration, metadata := spec.metadata, error := spec.error, tags := spec.tags } : TraceSpan)] from rfl] at hi2
        rw [happ] at hi2
        injection hi2 with h3
        exact Or.inl (by rw [← h3])
      · exact statusGoal_of_eq hsame hi hi2
  | completeSpan now2 tid2 spid md err =>
    simp only [applyOp] at h2
    cases hlo : lookupTrace tid2 s with
    | none =>
      rw [completeSpan_eq_none hlo] at h2
      exact statusGoal_unchanged h1 h2 hi hi2
    | some tr0 =>
      rw [completeSpan_eq_some hlo] at h2
      rcases lookupTrace_update h1 h2 with ⟨_, hf⟩ | hsame
      · rw [hf] at hi2
        rw [show (({ tr with spans := updateFirst (fun sp => sp.id == spid) (finishSpan now2 md err) tr.spans } : RequestTrace)).spans = updateFirst (fun sp => sp.id == spid) (finishSpan now2 md err) tr.spans from rfl] at hi2
        rcases updateFirst_getElem (fun sp => sp.id == spid) (finishSpan now2 md err) tr.spans i with hu | hu
        · rw [hu, hi] at hi2
          injection hi2 with h3
          exact Or.inl (by rw [← h3])
        · rw [hu, hi] at hi2
          injection hi2 with h3
          right
          rw [← h3]
          exact finishSpan_status now2 md err sp
      · exact statusGoal_of_eq hsame hi hi2
  | completeTrace now2 tid2 =>
    simp only [applyOp] at h2
    cases hlo : lookupTrace tid2 s with
    | none =>
      rw [completeTrace_snd_none hlo] at h2
      exact statusGoal_unchanged h1 h2 hi hi2
    | some tr0 =>
      rw [completeTrace_snd_some hlo] at h2
      rcases lookupTrace_update h1 h2 with ⟨heq, hf⟩ | hsame
      · have htr0 : tr0 = tr := by
          rw [heq] at h1
          rw [hlo] at h1
          injection h1
        rw [hf] at hi2
        rw [show (({ tr0 with endTime := some now2, duration := some (now2 - tr0.startTime) } : RequestTrace)).spans = tr0.spans from rfl] at hi2
        rw [htr0, hi] at hi2
        injection hi2 with h3
        exact Or.inl (by rw [← h3])
      · exact statusGoal_of_eq hsame hi hi2
  | timeoutDelete tid2 =>
    simp only [applyOp] at h2
    have h2s : lookupTrace tid s = some tr2 :=
      assocLookup_of_sublist (assocDelete_sublist tid2 s.traces) hnd h2
    exact statusGoal_unchanged h1 h2s hi hi2
  | cleanup now2 =>
    simp only [applyOp] at h2
    have h2s : lookupTrace tid s = some tr2 :=
      assocLookup_of_sublist (performCleanup_sublist now2 s) hnd h2
    exact statusGoal_unchanged h1 h2s hi hi2
  | destroy =>
    simp only [applyOp] at h2
    rw [show lookupTrace tid ⟨[]⟩ = none from rfl] at h2
    cases h2

/-- C7 witness: the amended theorem applied to the second, error-free
`completeSpan` of the counterexample sequence. -/
theorem C7_witness :
    nodupKeys (applyOps opsToError ⟨[]⟩) ∧
    lookupTrace "t" (applyOps opsToError ⟨[]⟩) =
      some ({ traceId := "t", startTime := 0, spans := [({ id := "sp", name := "db.query", startTime := 1, endTime := some 2, duration := some 1, status := SpanStatus.error, metadata := none, error := some "boom", tags := none } : TraceSpan)], metadata := {} } : RequestTrace) ∧
    (∀ tr2 sp2, lookupTrace "t" (applyOp (Op.completeSpan 3 "t" "sp" none none) (applyOps opsToError ⟨[]⟩)) = some tr2 →
      tr2.spans[0]? = some sp2 →
      sp2.status = SpanStatus.error ∨ sp2.status = SpanStatus.completed ∨
        sp2.status = SpanStatus.error) := by
  refine ⟨by decide, by decide, ?_⟩
  intro tr2 sp2 h2 hi2
  exact C7_theorem (Op.completeSpan 3 "t" "sp" none none) (applyOps opsToError ⟨[]⟩)
    "t"
    ({ traceId := "t", startTime := 0, spans := [({ id := "sp", name := "db.query", startTime := 1, endTime := some 2, duration := some 1, status := SpanStatus.error, metadata := none, error := some "boom", tags := none } : TraceSpan)], metadata := {} } : RequestTrace)
    tr2 0
    ({ id := "sp", name := "db.query", startTime := 1, endTime := some 2, duration := some 1, status := SpanStatus.error, metadata := none, error := some "boom", tags := none } : TraceSpan)
    sp2 (by decide) (by decide) h2 (by decide) hi2

theorem keys_mapUpdate (k : String) (f : RequestTrace → RequestTrace)
    (m : List (String × RequestTrace)) :
    (mapUpdate k f m).map Prod.fst = m.map Prod.fst :=
  keys_assocUpdate k f m

theorem length_mapUpdate (k : String) (f : RequestTrace → RequestTrace)
    (m : List (String × RequestTrace)) :
    (mapUpdate k f m).length = m.length :=
  length_assocUpdate k f m

theorem not_mem_keys_of_lookup_none {α : Type} {k : String} {m : List (String × α)}
    (h : assocLookup k m = none) : k ∉ m.map Prod.fst := by
  intro hk
  obtain ⟨e, he, hek⟩ := List.mem_map.mp hk
  exact (assocLookup_eq_none.mp h) e he hek

theorem applyOp_inv (op : Op) (s : TraceContextState) (hnd : nodupKeys s)
    (hlen : s.traces.length ≤ MAX_TRACES + 1) :
    nodupKeys (applyOp op s) ∧ (applyOp op s).traces.length ≤ MAX_TRACES + 1 := by
  cases op with
  | createTrace now2 tid2 md =>
    simp only [applyOp]
    cases hlo : lookupTrace tid2 s with
    | some ex =>
      rw [createTrace_existing hlo]
      exact ⟨hnd, hlen⟩
    | none =>
      rw [createTrace_new hlo]
      by_cases hcond : s.traces.length ≥ MAX_TRACES * 9 / 10
      · rw [if_pos hcond]
        have hnd1 : nodupKeys (performCleanup now2 s) := performCleanup_nodup now2 hnd
        have hlen1 : (performCleanup now2 s).traces.length ≤ MAX_TRACES :=
          performCleanup_length_le now2 hnd
        have hnotin : tid2 ∉ (performCleanup now2 s).traces.map Prod.fst := by
          intro hk
          apply not_mem_keys_of_lookup_none hlo
          exact ((performCleanup_sublist now2 s).map Prod.fst).mem hk
        have hnone1 : assocLookup tid2 (performCleanup now2 s).traces = none := by
          rw [assocLookup_eq_none]
          intro e he hek
          exact hnotin (hek ▸ List.mem_map.mpr ⟨e, he, rfl⟩)
        rw [show mapSet tid2 ({ traceId := tid2, startTime := now2, spans := [], metadata := md } : RequestTrace) (performCleanup now2 s).traces = (performCleanup now2 s).traces ++ [(tid2, ({ traceId := tid2, startTime := now2, spans := [], metadata := md } : RequestTrace))] from assocSet_absent hnone1 _]
        constructor
        · show (((performCleanup now2 s).traces ++ _).map Prod.fst).Nodup
          rw [List.map_append]
          rw [List.nodup_append]
          refine ⟨hnd1, List.nodup_singleton tid2, ?_⟩
          intro a ha hb
          rw [show (([(tid2, ({ traceId := tid2, startTime := now2, spans := [], metadata := md } : RequestTrace))]).map Prod.fst) = [tid2] from rfl] at hb
          rw [List.mem_singleton] at hb
          rw [hb] at ha
          exact hnotin ha
        · show ((performCleanup now2 s).traces ++ _).length ≤ MAX_TRACES + 1
          rw [List.length_append]
          have : ([(tid2, ({ traceId := tid2, startTime := now2, spans := [], metadata := md } : RequestTrace))]).length = 1 := rfl
          rw [this]
          exact Nat.add_le_add_right hlen1 1
      · rw [if_neg hcond]
        have hnone1 : assocLookup tid2 s.traces = none := hlo
        rw [show mapSet tid2 ({ traceId := tid2, startTime := now2, spans := [], metadata := md } : RequestTrace) s.traces = s.traces ++ [(tid2, ({ traceId := tid2, startTime := now2, spans := [], metadata := md } : RequestTrace))] from assocSet_absent hnone1 _]
        constructor
        · show ((s.traces ++ _).map Prod.fst).Nodup
          rw [List.map_append, List.nodup_append]
          refine ⟨hnd, List.nodup_singleton tid2, ?_⟩
          intro a ha hb
          rw [show (([(tid2, ({ traceId := tid2, startTime := now2, spans := [], metadata := md } : RequestTrace))]).map Prod.fst) = [tid2] from rfl] at hb
          rw [List.mem_singleton] at hb
          rw [hb] at ha
          exact not_mem_keys_of_lookup_none hlo ha
        · show (s.traces ++ _).length ≤ MAX_TRACES + 1
          rw [List.length_append]
          have hlt : s.traces.length < MAX_TRACES * 9 / 10 := Nat.lt_of_not_le hcond
          have h9 : MAX_TRACES * 9 / 10 ≤ MAX_TRACES + 1 := by
            show (10000 : Nat) * 9 / 10 ≤ 10000 + 1
            norm_num
          calc s.traces.length + ([(tid2, ({ traceId := tid2, startTime := now2, spans := [], metadata := md } : RequestTrace))]).length
              = s.traces.length + 1 := rfl
            _ ≤ MAX_TRACES * 9 / 10 := Nat.succ_le_of_lt hlt
            _ ≤ MAX_TRACES + 1 := h9
  | addSpan now2 fid tid2 spec =>
    simp only [applyOp]
    cases hlo : lookupTrace tid2 s with
    | none =>
      rw [addSpan_eq_none hlo]
      exact ⟨hnd, hlen⟩
    | some tr0 =>
      have happ : (match addSpan now2 fid tid2 spec s with
          | Except.ok (_, s1) => s1
          | Except.error _ => s) =
          (⟨mapUpdate tid2 (fun tr => { tr with spans := tr.spans ++ [({ id := fid, startTime := now2, status := SpanStatus.started, name := spec.name, endTime := spec.endTime, duration := spec.duration, metadata := spec.metadata, error := spec.error, tags := spec.tags } : TraceSpan)] }) s.traces⟩ : TraceContextState) := by
        rw [addSpan_eq_some hlo]
      rw [happ]
      constructor
      · show ((mapUpdate tid2 (fun tr => { tr with spans := tr.spans ++ [({ id := fid, startTime := now2, status := SpanStatus.started, name := spec.name, endTime := spec.endTime, duration := spec.duration, metadata := spec.metadata, error := spec.error, tags := spec.tags } : TraceSpan)] }) s.traces).map Prod.fst).Nodup
        rw [keys_mapUpdate]
        exact hnd
      · show (mapUpdate tid2 (fun tr => { tr with spans := tr.spans ++ [({ id := fid, startTime := now2, status := SpanStatus.started, name := spec.name, endTime := spec.endTime, duration := spec.duration, metadata := spec.metadata, error := spec.error, tags := spec.tags } : TraceSpan)] }) s.traces).length ≤ MAX_TRACES + 1
        rw [show (mapUpdate tid2 (fun tr => { tr with spans := tr.spans ++ [({ id := fid, startTime := now2, status := SpanStatus.started, name := spec.name, endTime := spec.endTime, duration := spec.duration, metadata := spec.metadata, error := spec.error, tags := spec.tags } : TraceSpan)] }) s.traces).length = s.traces.length from length_mapUpdate _ _ _]
        exact hlen
  | completeSpan now2 tid2 spid md err =>
    simp only [applyOp]
    cases hlo : lookupTrace tid2 s with
    | none =>
      rw [completeSpan_eq_none hlo]
      exact ⟨hnd, hlen⟩
    | some tr0 =>
      rw [completeSpan_eq_some hlo]
      constructor
      · show ((mapUpdate tid2 (fun tr => { tr with spans := updateFirst (fun sp => sp.id == spid) (finishSpan now2 md err) tr.spans }) s.traces).map Prod.fst).Nodup
        rw [keys_mapUpdate]
        exact hnd
      · show (mapUpdate tid2 (fun tr => { tr with spans := updateFirst (fun sp => sp.id == spid) (finishSpan now2 md err) tr.spans }) s.traces).length ≤ MAX_TRACES + 1
        rw [length_mapUpdate]
        exact hlen
  | completeTrace now2 tid2 =>
    simp only [applyOp]
    cases hlo : lookupTrace tid2 s with
    | none =>
      rw [completeTrace_snd_none hlo]
      exact ⟨hnd, hlen⟩
    | some tr0 =>
      rw [completeTrace_snd_some hlo]
      constructor
      · show ((mapUpdate tid2 (fun _ => { tr0 with endTime := some now2, duration := some (now2 - tr0.startTime) }) s.traces).map Prod.fst).Nodup
        rw [keys_mapUpdate]
        exact hnd
      · show (mapUpdate tid2 (fun _ => { tr0 with endTime := some now2, duration := some (now2 - tr0.startTime) }) s.traces).length ≤ MAX_TRACES + 1
        rw [length_mapUpdate]
        exact hlen
  | timeoutDelete tid2 =>
    simp only [applyOp]
    constructor
    · exact nodup_keys_sublist (assocDelete_sublist tid2 s.traces) hnd
    · exact le_trans (assocDelete_sublist tid2 s.traces).length_le hlen
  | cleanup now2 =>
    simp only [applyOp]
    constructor
    · exact performCleanup_nodup now2 hnd
    · exact le_trans (performCleanup_sublist now2 s).length_le hlen
  | destroy =>
    simp only [applyOp]
    constructor
    · exact List.nodup_nil
    · show (0 : Nat) ≤ MAX_TRACES + 1
      exact Nat.zero_le _

theorem applyOps_inv (ops : List Op) (s : TraceContextState) (hnd : nodupKeys s)
    (hlen : s.traces.length ≤ MAX_TRACES + 1) :
    nodupKeys (applyOps ops s) ∧ (applyOps ops s).traces.length ≤ MAX_TRACES + 1 := by
  induction ops generalizing s with
  | nil => exact ⟨hnd, hlen⟩
  | cons op rest ih =>
    have h1 := applyOp_inv op s hnd hlen
    exact ih (applyOp op s) h1.1 h1.2

/-- C9: starting from the empty store, immediately after every `createTrace`
call — at the end of any sequence of store operations — the number of live
traces is at most `MAX_TRACES + 1` (10,001): the near-capacity cleanup trims
the store to at most 10,000 before the new trace is inserted, so the store is
bounded but may exceed the configured capacity by exactly one. -/
theorem C9_theorem (ops : List Op) (now : Int) (traceId : String)
    (md : TraceMetadata) :
    ((createTrace now traceId md (applyOps ops ⟨[]⟩)).2).traces.length ≤
      MAX_TRACES + 1 := by
  have hinv := applyOps_inv ops ⟨[]⟩ List.nodup_nil (by
    show (0 : Nat) ≤ MAX_TRACES + 1
    exact Nat.zero_le _)
  exact (applyOp_inv (Op.createTrace now traceId md) (applyOps ops ⟨[]⟩)
    hinv.1 hinv.2).2
